import Mathlib

/-!
# Boundary conditions and output arrays of the macro-scale heat-conduction problem

A shallow embedding of `OnePNIConductionProblem`
(`two-scale-heat-conduction/macro-dumux/appl/problem.hh`).

Modelling conventions:

* `Scalar` (a C++ `double`) is an exact rational number in the first
  embedding, whose statements are about the branching logic of the code, not
  about rounding; the section on double arithmetic embeds the two boundary
  methods a second time with every arithmetic result rounded to the nearest
  double, and the statements that depend on the comparison of a coordinate
  with `min + eps_` or `max - eps_` are made there;
* `getParam<T>(key)` is a lookup in a partial map that fails on a missing or
  mistyped key, and a lookup on the right of a C++ `&&` happens only when the
  left operand is true;
* a cell count is an integer and a mesh width is the rational quotient; for a
  zero cell count, where C++ yields an infinity or a NaN, the quotient is 0
  here, so the statements that need the sign of a mesh width assume positive
  cell counts;
* `priVars[i] = v` is `Function.update priVars i v`;
* an output array is a list, `v[i] = x` is `List.set`, and the mesh, the
  element solution and the volume variables, which the framework supplies, are
  parameters of the output pass.
-/

namespace Dumux

/-- The scalar type of the problem. -/
abbrev Scalar := ℚ

/-- A world coordinate; `x` is `globalPos[0]`, `y` is `globalPos[1]`. -/
structure GlobalPosition where
  x : Scalar
  y : Scalar
  deriving DecidableEq, Repr

/-- The part of the grid geometry the boundary conditions read: the corners
`bBoxMin()` and `bBoxMax()` of the bounding box. -/
structure GridGeometry where
  bBoxMin : GlobalPosition
  bBoxMax : GlobalPosition
  deriving DecidableEq, Repr

/-- Modelled from the spec: the index enumeration of the model traits
(`Indices::pressureIdx`, `Indices::temperatureIdx`, `numEq()`), declared
outside this file. The data model makes pressure and temperature two
different slots of the primary-variables vector. -/
structure Indices where
  numEq : ℕ
  pressureIdx : Fin numEq
  temperatureIdx : Fin numEq
  distinct : pressureIdx ≠ temperatureIdx

/-- The vector of primary variables, one scalar per equation. -/
abbrev PrimaryVariables (numEq : ℕ) := Fin numEq → Scalar

/-- The outcome of `setAllDirichlet()` or `setAllNeumann()` on a fresh
`BoundaryTypes` object. -/
inductive BoundaryTypes where
  | allDirichlet
  | allNeumann
  deriving DecidableEq, Repr

/-- A typed entry of the parameter store. -/
inductive ParamValue where
  | string (s : String)
  | bool (b : Bool)
  | scalar (v : Scalar)
  | intArray2 (c0 c1 : ℤ)
  deriving DecidableEq, Repr

/-- The parameter store: a partial map from keys to typed values. -/
abbrev ParameterTree := String → Option ParamValue

/-- The exception thrown by a failed `getParam`. -/
inductive ParamError where
  | missing (key : String)
  | mistyped (key : String)
  deriving DecidableEq, Repr

/-- The lookup `getParam<std::string>(key)`. -/
def getParamString (t : ParameterTree) (key : String) : Except ParamError String :=
  match t key with
  | some (ParamValue.string s) => Except.ok s
  | some _ => Except.error (ParamError.mistyped key)
  | none => Except.error (ParamError.missing key)

/-- The lookup `getParam<bool>(key)`. -/
def getParamBool (t : ParameterTree) (key : String) : Except ParamError Bool :=
  match t key with
  | some (ParamValue.bool b) => Except.ok b
  | some _ => Except.error (ParamError.mistyped key)
  | none => Except.error (ParamError.missing key)

/-- The lookup `getParam<Scalar>(key)`. -/
def getParamScalar (t : ParameterTree) (key : String) : Except ParamError Scalar :=
  match t key with
  | some (ParamValue.scalar v) => Except.ok v
  | some _ => Except.error (ParamError.mistyped key)
  | none => Except.error (ParamError.missing key)

/-- The lookup `getParam<std::array<int, 2>>(key)`. -/
def getParamCells (t : ParameterTree) (key : String) : Except ParamError (ℤ × ℤ) :=
  match t key with
  | some (ParamValue.intArray2 c0 c1) => Except.ok (c0, c1)
  | some _ => Except.error (ParamError.mistyped key)
  | none => Except.error (ParamError.missing key)

/-- The constant `eps_ = 1e-6`. -/
def eps_ : Scalar := 1 / 1000000

/-- The C++ expression `geometric && lookup`: the lookup on the right is
evaluated only when the geometric test on the left is true. -/
def andAlso (geometric : Bool) (lookup : Except ParamError Bool) : Except ParamError Bool :=
  if geometric then lookup else Except.ok false

/-- The test `getParam<std::string>(key) == "dirichlet"`. -/
def isDirichletType (t : ParameterTree) (key : String) : Except ParamError Bool :=
  (getParamString t key).map fun s => s == "dirichlet"

/-- The mesh width `(bBoxMax - bBoxMin) / cells` along one axis. -/
def meshWidth (lo hi : Scalar) (cells : ℤ) : Scalar := (hi - lo) / (cells : Scalar)

/-- The method `boundaryTypesAtPos`: an `if / else if` chain over the four
edges and the two halves of the heat-source corner. -/
def boundaryTypesAtPos (g : GridGeometry) (t : ParameterTree) (globalPos : GlobalPosition) :
    Except ParamError BoundaryTypes := do
  let cells ← getParamCells t "Grid.Cells"
  let meshWidthX := meshWidth g.bBoxMin.x g.bBoxMax.x cells.1
  let meshWidthY := meshWidth g.bBoxMin.y g.bBoxMax.y cells.2
  let bottom ← andAlso (globalPos.y < g.bBoxMin.y + eps_)
    (isDirichletType t "BoundaryConditions.BcTypeBottom")
  if bottom then pure BoundaryTypes.allDirichlet else
  let top ← andAlso (globalPos.y > g.bBoxMax.y - eps_)
    (isDirichletType t "BoundaryConditions.BcTypeTop")
  if top then pure BoundaryTypes.allDirichlet else
  let left ← andAlso (globalPos.x < g.bBoxMin.x + eps_)
    (isDirichletType t "BoundaryConditions.BcTypeLeft")
  if left then pure BoundaryTypes.allDirichlet else
  let right ← andAlso (globalPos.x > g.bBoxMax.x - eps_)
    (isDirichletType t "BoundaryConditions.BcTypeRight")
  if right then pure BoundaryTypes.allDirichlet else
  let sourceBottom ← andAlso
    (globalPos.y < g.bBoxMin.y + eps_ && globalPos.x < g.bBoxMin.x + meshWidthX + eps_)
    (getParamBool t "BoundaryConditions.UseHeatSourceBottomLeft")
  if sourceBottom then pure BoundaryTypes.allDirichlet else
  let sourceLeft ← andAlso
    (globalPos.x < g.bBoxMin.x + eps_ && globalPos.y < g.bBoxMin.y + meshWidthY + eps_)
    (getParamBool t "BoundaryConditions.UseHeatSourceBottomLeft")
  if sourceLeft then pure BoundaryTypes.allDirichlet else
  pure BoundaryTypes.allNeumann

/-- The private method `initial_`: a zero vector with the pressure slot and
then the temperature slot assigned. -/
def initial_ (idx : Indices) (t : ParameterTree) :
    Except ParamError (PrimaryVariables idx.numEq) := do
  let priVars : PrimaryVariables idx.numEq := fun _ => 0
  let priVars := Function.update priVars idx.pressureIdx
    (← getParamScalar t "InitialConditions.Pressure")
  let priVars := Function.update priVars idx.temperatureIdx
    (← getParamScalar t "InitialConditions.Temperature")
  pure priVars

/-- The method `initialAtPos`: the position is ignored. -/
def initialAtPos (idx : Indices) (t : ParameterTree) (_globalPos : GlobalPosition) :
    Except ParamError (PrimaryVariables idx.numEq) :=
  initial_ idx t

/-- The method `dirichletAtPos`: the initial vector, whose temperature slot is
overwritten by the left/right pair, then by the bottom/top pair, then by the
heat source. -/
def dirichletAtPos (idx : Indices) (g : GridGeometry) (t : ParameterTree)
    (globalPos : GlobalPosition) : Except ParamError (PrimaryVariables idx.numEq) := do
  let mut priVars ← initial_ idx t
  let cells ← getParamCells t "Grid.Cells"
  let meshWidthX := meshWidth g.bBoxMin.x g.bBoxMax.x cells.1
  let meshWidthY := meshWidth g.bBoxMin.y g.bBoxMax.y cells.2
  if globalPos.x < g.bBoxMin.x + eps_ then
    priVars := Function.update priVars idx.temperatureIdx
      (← getParamScalar t "BoundaryConditions.BcLeft")
  else if globalPos.x > g.bBoxMax.x - eps_ then
    priVars := Function.update priVars idx.temperatureIdx
      (← getParamScalar t "BoundaryConditions.BcRight")
  if globalPos.y < g.bBoxMin.y + eps_ then
    priVars := Function.update priVars idx.temperatureIdx
      (← getParamScalar t "BoundaryConditions.BcBottom")
  else if globalPos.y > g.bBoxMax.y - eps_ then
    priVars := Function.update priVars idx.temperatureIdx
      (← getParamScalar t "BoundaryConditions.BcTop")
  if ← getParamBool t "BoundaryConditions.UseHeatSourceBottomLeft" then
    if (globalPos.y < g.bBoxMin.y + eps_ &&
          globalPos.x < g.bBoxMin.x + meshWidthX + eps_) ||
        (globalPos.x < g.bBoxMin.x + eps_ &&
          globalPos.y < g.bBoxMin.y + meshWidthY + eps_) then
      priVars := Function.update priVars idx.temperatureIdx
        (← getParamScalar t "BoundaryConditions.HeatSourceBottomLeft")
  pure priVars

/-- A complete parameter set: one value for every key the problem reads. -/
structure Parameters where
  cells : ℤ × ℤ
  bcTypeBottom : String
  bcTypeTop : String
  bcTypeLeft : String
  bcTypeRight : String
  bcBottom : Scalar
  bcTop : Scalar
  bcLeft : Scalar
  bcRight : Scalar
  useHeatSourceBottomLeft : Bool
  heatSourceBottomLeft : Scalar
  initialPressure : Scalar
  initialTemperature : Scalar
  deriving DecidableEq, Repr

/-- The parameter store holding a complete parameter set under the keys of the
input file. -/
def Parameters.tree (p : Parameters) : ParameterTree := fun key =>
  if key = "Grid.Cells" then some (ParamValue.intArray2 p.cells.1 p.cells.2)
  else if key = "BoundaryConditions.BcTypeBottom" then some (ParamValue.string p.bcTypeBottom)
  else if key = "BoundaryConditions.BcTypeTop" then some (ParamValue.string p.bcTypeTop)
  else if key = "BoundaryConditions.BcTypeLeft" then some (ParamValue.string p.bcTypeLeft)
  else if key = "BoundaryConditions.BcTypeRight" then some (ParamValue.string p.bcTypeRight)
  else if key = "BoundaryConditions.BcBottom" then some (ParamValue.scalar p.bcBottom)
  else if key = "BoundaryConditions.BcTop" then some (ParamValue.scalar p.bcTop)
  else if key = "BoundaryConditions.BcLeft" then some (ParamValue.scalar p.bcLeft)
  else if key = "BoundaryConditions.BcRight" then some (ParamValue.scalar p.bcRight)
  else if key = "BoundaryConditions.UseHeatSourceBottomLeft" then
    some (ParamValue.bool p.useHeatSourceBottomLeft)
  else if key = "BoundaryConditions.HeatSourceBottomLeft" then
    some (ParamValue.scalar p.heatSourceBottomLeft)
  else if key = "InitialConditions.Pressure" then some (ParamValue.scalar p.initialPressure)
  else if key = "InitialConditions.Temperature" then
    some (ParamValue.scalar p.initialTemperature)
  else none

/-! ## Closed forms of the two methods on a complete parameter set -/

/-- The condition of the `if / else if` chain of `boundaryTypesAtPos`, with the
tests written as in the code. -/
def codeChain (g : GridGeometry) (p : Parameters) (pos : GlobalPosition) : Bool :=
  (pos.y < g.bBoxMin.y + eps_ && p.bcTypeBottom == "dirichlet") ||
  (pos.y > g.bBoxMax.y - eps_ && p.bcTypeTop == "dirichlet") ||
  (pos.x < g.bBoxMin.x + eps_ && p.bcTypeLeft == "dirichlet") ||
  (pos.x > g.bBoxMax.x - eps_ && p.bcTypeRight == "dirichlet") ||
  ((pos.y < g.bBoxMin.y + eps_ &&
      pos.x < g.bBoxMin.x + meshWidth g.bBoxMin.x g.bBoxMax.x p.cells.1 + eps_) &&
    p.useHeatSourceBottomLeft) ||
  ((pos.x < g.bBoxMin.x + eps_ &&
      pos.y < g.bBoxMin.y + meshWidth g.bBoxMin.y g.bBoxMax.y p.cells.2 + eps_) &&
    p.useHeatSourceBottomLeft)

/-- The vector `initial_` builds when both initial conditions are present. -/
def initialVector (idx : Indices) (p : Parameters) : PrimaryVariables idx.numEq :=
  Function.update (Function.update (fun _ => 0) idx.pressureIdx p.initialPressure)
    idx.temperatureIdx p.initialTemperature

/-- The geometric test of the heat-source branch of `dirichletAtPos`. -/
def inCorner (g : GridGeometry) (p : Parameters) (pos : GlobalPosition) : Bool :=
  (pos.y < g.bBoxMin.y + eps_ &&
      pos.x < g.bBoxMin.x + meshWidth g.bBoxMin.x g.bBoxMax.x p.cells.1 + eps_) ||
    (pos.x < g.bBoxMin.x + eps_ &&
      pos.y < g.bBoxMin.y + meshWidth g.bBoxMin.y g.bBoxMax.y p.cells.2 + eps_)

/-- The value the temperature slot holds when `dirichletAtPos` returns: the
last assignment that was executed. -/
def temperatureAt (g : GridGeometry) (p : Parameters) (pos : GlobalPosition) : Scalar :=
  if p.useHeatSourceBottomLeft ∧ inCorner g p pos then p.heatSourceBottomLeft
  else if pos.y < g.bBoxMin.y + eps_ then p.bcBottom
  else if pos.y > g.bBoxMax.y - eps_ then p.bcTop
  else if pos.x < g.bBoxMin.x + eps_ then p.bcLeft
  else if pos.x > g.bBoxMax.x - eps_ then p.bcRight
  else p.initialTemperature

/-- The temperature slot of a returned vector. -/
def temperatureSlot (idx : Indices) (r : Except ParamError (PrimaryVariables idx.numEq)) :
    Except ParamError Scalar :=
  r.map fun priVars => priVars idx.temperatureIdx

/-- The pressure slot of a returned vector. -/
def pressureSlot (idx : Indices) (r : Except ParamError (PrimaryVariables idx.numEq)) :
    Except ParamError Scalar :=
  r.map fun priVars => priVars idx.pressureIdx

/-! ## The specification's reading of the two components -/

/-- The cell width of the data model along x: `(maxX - minX) / cellCountX`. -/
def cellWidthX (g : GridGeometry) (p : Parameters) : Scalar :=
  (g.bBoxMax.x - g.bBoxMin.x) / (p.cells.1 : Scalar)

/-- The cell width of the data model along y: `(maxY - minY) / cellCountY`. -/
def cellWidthY (g : GridGeometry) (p : Parameters) : Scalar :=
  (g.bBoxMax.y - g.bBoxMin.y) / (p.cells.2 : Scalar)

/-- Rule 1 of the classifier: within epsilon of the bottom edge and the bottom
selector is "dirichlet". -/
def specRule1 (g : GridGeometry) (p : Parameters) (pos : GlobalPosition) : Prop :=
  pos.y - g.bBoxMin.y < eps_ ∧ p.bcTypeBottom = "dirichlet"

/-- Rule 2 of the classifier: within epsilon of the top edge and the top
selector is "dirichlet". -/
def specRule2 (g : GridGeometry) (p : Parameters) (pos : GlobalPosition) : Prop :=
  g.bBoxMax.y - pos.y < eps_ ∧ p.bcTypeTop = "dirichlet"

/-- Rule 3 of the classifier: within epsilon of the left edge and the left
selector is "dirichlet". -/
def specRule3 (g : GridGeometry) (p : Parameters) (pos : GlobalPosition) : Prop :=
  pos.x - g.bBoxMin.x < eps_ ∧ p.bcTypeLeft = "dirichlet"

/-- Rule 4 of the classifier: within epsilon of the right edge and the right
selector is "dirichlet". -/
def specRule4 (g : GridGeometry) (p : Parameters) (pos : GlobalPosition) : Prop :=
  g.bBoxMax.x - pos.x < eps_ ∧ p.bcTypeRight = "dirichlet"

/-- The bottom-left corner cell of rule 5. -/
def specCorner (g : GridGeometry) (p : Parameters) (pos : GlobalPosition) : Prop :=
  (pos.y - g.bBoxMin.y < eps_ ∧ pos.x - g.bBoxMin.x < cellWidthX g p + eps_) ∨
    (pos.x - g.bBoxMin.x < eps_ ∧ pos.y - g.bBoxMin.y < cellWidthY g p + eps_)

/-- Rule 5 of the classifier: the heat-source flag is enabled and the position
lies in the bottom-left corner cell. -/
def specRule5 (g : GridGeometry) (p : Parameters) (pos : GlobalPosition) : Prop :=
  p.useHeatSourceBottomLeft = true ∧ specCorner g p pos

instance (g : GridGeometry) (p : Parameters) (pos : GlobalPosition) :
    Decidable (specRule1 g p pos) := by unfold specRule1; infer_instance

instance (g : GridGeometry) (p : Parameters) (pos : GlobalPosition) :
    Decidable (specRule2 g p pos) := by unfold specRule2; infer_instance

instance (g : GridGeometry) (p : Parameters) (pos : GlobalPosition) :
    Decidable (specRule3 g p pos) := by unfold specRule3; infer_instance

instance (g : GridGeometry) (p : Parameters) (pos : GlobalPosition) :
    Decidable (specRule4 g p pos) := by unfold specRule4; infer_instance

instance (g : GridGeometry) (p : Parameters) (pos : GlobalPosition) :
    Decidable (specCorner g p pos) := by unfold specCorner; infer_instance

instance (g : GridGeometry) (p : Parameters) (pos : GlobalPosition) :
    Decidable (specRule5 g p pos) := by unfold specRule5; infer_instance

/-- First match wins: the kind of the first rule whose condition holds, and the
default when none does. -/
def firstMatch : List (Bool × BoundaryTypes) → BoundaryTypes → BoundaryTypes
  | [], otherwise => otherwise
  | (condition, kind) :: rest, otherwise =>
    if condition then kind else firstMatch rest otherwise

/-- The classifier of the specification: rules 1 to 5 give Dirichlet, and
rule 6, the adiabatic default, gives Neumann. -/
def classify (g : GridGeometry) (p : Parameters) (pos : GlobalPosition) : BoundaryTypes :=
  firstMatch
    [(decide (specRule1 g p pos), BoundaryTypes.allDirichlet),
     (decide (specRule2 g p pos), BoundaryTypes.allDirichlet),
     (decide (specRule3 g p pos), BoundaryTypes.allDirichlet),
     (decide (specRule4 g p pos), BoundaryTypes.allDirichlet),
     (decide (specRule5 g p pos), BoundaryTypes.allDirichlet)]
    BoundaryTypes.allNeumann

/-- The initial-condition vector of the specification: the configured pressure
and temperature in their slots, zero in every other slot. -/
def initialConditionVector (idx : Indices) (p : Parameters) : PrimaryVariables idx.numEq :=
  fun i =>
    if i = idx.temperatureIdx then p.initialTemperature
    else if i = idx.pressureIdx then p.initialPressure
    else 0

/-- The indices of the one-phase non-isothermal model: pressure first,
temperature second. -/
def onePNI : Indices := ⟨2, 0, 1, by decide⟩

/-- A ten-by-ten domain with its lower left corner at the origin. -/
def tenByTen : GridGeometry := ⟨⟨0, 0⟩, ⟨10, 10⟩⟩

/-- A parameter set with the heat source enabled and pairwise different
temperatures. -/
def heated : Parameters :=
  ⟨(4, 5), "dirichlet", "neumann", "dirichlet", "neumann", 1, 2, 3, 4, true, 99, 7, 8⟩

/-- The same parameter set with the heat source disabled. -/
def unheated : Parameters :=
  ⟨(4, 5), "neumann", "neumann", "dirichlet", "neumann", 1, 2, 3, 4, false, 99, 7, 8⟩

/-! ## Incomplete parameter stores -/

/-- Two parameter stores that hold the same entry under every key but one. -/
def agreeExcept (t t' : ParameterTree) (key : String) : Prop :=
  ∀ k : String, k ≠ key → t k = t' k

/-- The condition of the first branch of `boundaryTypesAtPos`. -/
def bottomTest (g : GridGeometry) (t : ParameterTree) (pos : GlobalPosition) :
    Except ParamError Bool :=
  andAlso (pos.y < g.bBoxMin.y + eps_) (isDirichletType t "BoundaryConditions.BcTypeBottom")

/-- The condition of the second branch of `boundaryTypesAtPos`. -/
def topTest (g : GridGeometry) (t : ParameterTree) (pos : GlobalPosition) :
    Except ParamError Bool :=
  andAlso (pos.y > g.bBoxMax.y - eps_) (isDirichletType t "BoundaryConditions.BcTypeTop")

/-- The condition of the third branch of `boundaryTypesAtPos`. -/
def leftTest (g : GridGeometry) (t : ParameterTree) (pos : GlobalPosition) :
    Except ParamError Bool :=
  andAlso (pos.x < g.bBoxMin.x + eps_) (isDirichletType t "BoundaryConditions.BcTypeLeft")

/-- The condition of the fourth branch of `boundaryTypesAtPos`. -/
def rightTest (g : GridGeometry) (t : ParameterTree) (pos : GlobalPosition) :
    Except ParamError Bool :=
  andAlso (pos.x > g.bBoxMax.x - eps_) (isDirichletType t "BoundaryConditions.BcTypeRight")

/-- The conditions of the six branches of `boundaryTypesAtPos`, in order. -/
def chainTests (g : GridGeometry) (t : ParameterTree) (pos : GlobalPosition) (cells : ℤ × ℤ) :
    List (Except ParamError Bool) :=
  [bottomTest g t pos, topTest g t pos, leftTest g t pos, rightTest g t pos,
   andAlso (pos.y < g.bBoxMin.y + eps_ &&
       pos.x < g.bBoxMin.x + meshWidth g.bBoxMin.x g.bBoxMax.x cells.1 + eps_)
     (getParamBool t "BoundaryConditions.UseHeatSourceBottomLeft"),
   andAlso (pos.x < g.bBoxMin.x + eps_ &&
       pos.y < g.bBoxMin.y + meshWidth g.bBoxMin.y g.bBoxMax.y cells.2 + eps_)
     (getParamBool t "BoundaryConditions.UseHeatSourceBottomLeft")]

/-- An `if / else if` chain over a list of conditions: the first condition that
fails ends the chain with its error, the first that holds gives Dirichlet, and
Neumann is left when none holds. -/
def runChain : List (Except ParamError Bool) → Except ParamError BoundaryTypes
  | [] => pure BoundaryTypes.allNeumann
  | r :: rest => r >>= fun b => if b then pure BoundaryTypes.allDirichlet else runChain rest

/-- A parameter store that holds `Grid.Cells` and nothing else. -/
def cellsOnly : ParameterTree := fun key =>
  if key = "Grid.Cells" then some (ParamValue.intArray2 4 5) else none

/-- The empty parameter store. -/
def noParameters : ParameterTree := fun _ => none

/-! ## The output arrays -/

/-- The two quantities the output pass reads from the volume variables:
`porosity()` and `effectiveThermalConductivity()`, the latter indexed as
`[row][column]`. -/
structure VolumeVariables where
  porosity : Scalar
  effectiveThermalConductivity : Fin 2 → Fin 2 → Scalar

/-- What the framework supplies to the constructor and to the output pass,
taken as parameters: `numDofs()`, the elements of the grid view and the
sub-control volumes of a bound element in iteration order, `elementIndex()`,
`elementSolution` and the update of the volume variables. The update receives
the problem through a const reference and the output arrays are private
members behind non-const getters, so its result does not depend on them. -/
structure Discretization (Element Scv SolutionVector ElementSolution : Type) where
  numDofs : ℕ
  elements : List Element
  scvs : Element → List Scv
  elementIndex : Scv → ℕ
  elementSolution : Element → SolutionVector → ElementSolution
  update : ElementSolution → Element → Scv → VolumeVariables

/-- The data members of the problem: the name and the five output arrays. An
assignment `v[i] = x` is `List.set`; a write past the end, undefined in C++,
leaves the array as it is. -/
structure OnePNIConductionProblem where
  name_ : String
  porosity_ : List Scalar
  k00_ : List Scalar
  k01_ : List Scalar
  k10_ : List Scalar
  k11_ : List Scalar
  deriving DecidableEq, Repr

/-- The call `v.resize(n)` of `std::vector`: the first `n` entries are kept and
the new entries are value-initialised. -/
def resize (v : List Scalar) (n : ℕ) : List Scalar :=
  v.take n ++ List.replicate (n - v.length) 0

/-- The constructor: the name is looked up and the five empty arrays are
resized to the number of degrees of freedom. -/
def OnePNIConductionProblem.construct {Element Scv SolutionVector ElementSolution : Type}
    (gridGeometry : Discretization Element Scv SolutionVector ElementSolution)
    (t : ParameterTree) : Except ParamError OnePNIConductionProblem := do
  let name_ ← getParamString t "Problem.Name"
  pure ⟨name_, resize [] gridGeometry.numDofs, resize [] gridGeometry.numDofs,
    resize [] gridGeometry.numDofs, resize [] gridGeometry.numDofs,
    resize [] gridGeometry.numDofs⟩

/-- The method `updateVtkOutput`: a loop over the elements and, inside, a loop
over the sub-control volumes of the element, each writing five entries at the
element index of the sub-control volume. -/
def updateVtkOutput {Element Scv SolutionVector ElementSolution : Type}
    (gridGeometry : Discretization Element Scv SolutionVector ElementSolution)
    (problem : OnePNIConductionProblem) (curSol : SolutionVector) : OnePNIConductionProblem :=
  gridGeometry.elements.foldl
    (fun problem element =>
      let elemSol := gridGeometry.elementSolution element curSol
      (gridGeometry.scvs element).foldl
        (fun problem scv =>
          let volVars := gridGeometry.update elemSol element scv
          let elementIdx := gridGeometry.elementIndex scv
          ⟨problem.name_,
           problem.porosity_.set elementIdx volVars.porosity,
           problem.k00_.set elementIdx (volVars.effectiveThermalConductivity 0 0),
           problem.k01_.set elementIdx (volVars.effectiveThermalConductivity 0 1),
           problem.k10_.set elementIdx (volVars.effectiveThermalConductivity 1 0),
           problem.k11_.set elementIdx (volVars.effectiveThermalConductivity 1 1)⟩)
        problem)
    problem

/-- The sub-control volumes in the order the double loop visits them, each with
its element. -/
def iterationOrder {Element Scv SolutionVector ElementSolution : Type}
    (gridGeometry : Discretization Element Scv SolutionVector ElementSolution) :
    List (Element × Scv) :=
  gridGeometry.elements.flatMap fun element =>
    (gridGeometry.scvs element).map fun scv => (element, scv)

/-- The last sub-control volume with element index `e` in iteration order. -/
def lastVisit {Element Scv SolutionVector ElementSolution : Type}
    (gridGeometry : Discretization Element Scv SolutionVector ElementSolution) (e : ℕ) :
    Option (Element × Scv) :=
  ((iterationOrder gridGeometry).filter
    fun visit => decide (gridGeometry.elementIndex visit.2 = e)).getLast?

/-- The volume variables of one visited sub-control volume. -/
def volVarsAt {Element Scv SolutionVector ElementSolution : Type}
    (gridGeometry : Discretization Element Scv SolutionVector ElementSolution)
    (curSol : SolutionVector) (visit : Element × Scv) : VolumeVariables :=
  gridGeometry.update (gridGeometry.elementSolution visit.1 curSol) visit.1 visit.2

/-- A sequence of writes `(index, value)` applied to one array in order. -/
def writeAll (a : List Scalar) (writes : List (ℕ × Scalar)) : List Scalar :=
  writes.foldl (fun a w => a.set w.1 w.2) a

/-- The body of the inner loop of `updateVtkOutput` for one visit. -/
def writeVisit {Element Scv SolutionVector ElementSolution : Type}
    (gridGeometry : Discretization Element Scv SolutionVector ElementSolution)
    (curSol : SolutionVector) (problem : OnePNIConductionProblem) (visit : Element × Scv) :
    OnePNIConductionProblem :=
  ⟨problem.name_,
   problem.porosity_.set (gridGeometry.elementIndex visit.2)
     (volVarsAt gridGeometry curSol visit).porosity,
   problem.k00_.set (gridGeometry.elementIndex visit.2)
     ((volVarsAt gridGeometry curSol visit).effectiveThermalConductivity 0 0),
   problem.k01_.set (gridGeometry.elementIndex visit.2)
     ((volVarsAt gridGeometry curSol visit).effectiveThermalConductivity 0 1),
   problem.k10_.set (gridGeometry.elementIndex visit.2)
     ((volVarsAt gridGeometry curSol visit).effectiveThermalConductivity 1 0),
   problem.k11_.set (gridGeometry.elementIndex visit.2)
     ((volVarsAt gridGeometry curSol visit).effectiveThermalConductivity 1 1)⟩

/-- The five output arrays of a problem. -/
def OnePNIConductionProblem.arrays (problem : OnePNIConductionProblem) : List (List Scalar) :=
  [problem.porosity_, problem.k00_, problem.k01_, problem.k10_, problem.k11_]

/-- The writes of one pass to the porosity array, in iteration order. -/
def porosityWrites {Element Scv SolutionVector ElementSolution : Type}
    (gridGeometry : Discretization Element Scv SolutionVector ElementSolution)
    (curSol : SolutionVector) : List (ℕ × Scalar) :=
  (iterationOrder gridGeometry).map fun visit =>
    (gridGeometry.elementIndex visit.2, (volVarsAt gridGeometry curSol visit).porosity)

/-- The writes of one pass to the array of the conductivity entry `[i][j]`, in
iteration order. -/
def conductivityWrites {Element Scv SolutionVector ElementSolution : Type}
    (gridGeometry : Discretization Element Scv SolutionVector ElementSolution)
    (curSol : SolutionVector) (i j : Fin 2) : List (ℕ × Scalar) :=
  (iterationOrder gridGeometry).map fun visit =>
    (gridGeometry.elementIndex visit.2,
      (volVarsAt gridGeometry curSol visit).effectiveThermalConductivity i j)

/-- A vertex-centred discretisation of one quadrilateral: four degrees of
freedom, one element and its four sub-control volumes, all with element
index 0. -/
def boxQuad : Discretization ℕ (ℕ × ℕ) (List Scalar) Scalar :=
  ⟨4, [0], fun element => [(element, 0), (element, 1), (element, 2), (element, 3)],
    fun scv => scv.1, fun element curSol => curSol.getD element 0,
    fun elemSol _ scv =>
      ⟨elemSol + (scv.2 : Scalar), fun i j => elemSol * (2 * (i.val : Scalar) + j.val + 1)⟩⟩

/-- A cell-centred discretisation of two cells: one degree of freedom and one
sub-control volume per element. -/
def twoCells : Discretization ℕ (ℕ × ℕ) (List Scalar) Scalar :=
  ⟨2, [0, 1], fun element => [(element, 0)],
    fun scv => scv.1, fun element curSol => curSol.getD element 0,
    fun elemSol _ scv =>
      ⟨elemSol + (scv.2 : Scalar), fun i j => elemSol * (2 * (i.val : Scalar) + j.val + 1)⟩⟩

/-- A parameter store that holds the problem name and nothing else. -/
def nameOnly : ParameterTree := fun key =>
  if key = "Problem.Name" then some (ParamValue.string "macro-heat") else none

/-- A problem whose five arrays hold `n` copies of `value`. -/
def filledWith (value : Scalar) (n : ℕ) : OnePNIConductionProblem :=
  ⟨"macro-heat", List.replicate n value, List.replicate n value, List.replicate n value,
    List.replicate n value, List.replicate n value⟩

/-! ## Double arithmetic

The methods once more, with the result of every sum, difference and quotient
rounded by a function `fl`, and the constant `eps_` stored as `fl eps_`. With
`fl = roundDouble` this is the arithmetic of the C++ `double` as long as no
result overflows and no cell count is zero: the statements that depend on a
mesh width assume positive cell counts and coordinates of magnitude at most
`2^1000`. With `fl = id` it is the exact arithmetic of the definitions
above. -/

/-- Rounding to the nearest integer, a tie going to the even neighbour. -/
def roundHalfEven (x : ℚ) : ℤ :=
  if x - ⌊x⌋ < 1 / 2 then ⌊x⌋
  else if 1 / 2 < x - ⌊x⌋ then ⌊x⌋ + 1
  else if ⌊x⌋ % 2 = 0 then ⌊x⌋ else ⌊x⌋ + 1

/-- The exponent of the spacing of the doubles around `q`: 52 below the binary
exponent of `q`, which is taken to be -1022 in the subnormal range. -/
def ulpExponent (q : ℚ) : ℤ := max (Int.log 2 |q|) (-1022) - 52

/-- The double nearest to `q` (IEEE 754 binary64, round to nearest, ties to
even): `q` is rounded to a multiple of the spacing of the doubles around it.
The exponent has no upper bound here, so a `q` beyond the largest finite double
is rounded to 53 bits instead of becoming an infinity. -/
def roundDouble (q : ℚ) : ℚ :=
  (roundHalfEven (q / 2 ^ ulpExponent q) : ℚ) * 2 ^ ulpExponent q

/-- The mesh width `(bBoxMax - bBoxMin) / cells`, the difference and the
quotient rounded. -/
def meshWidthRounded (fl : Scalar → Scalar) (lo hi : Scalar) (cells : ℤ) : Scalar :=
  fl (fl (hi - lo) / (cells : Scalar))

/-- The method `boundaryTypesAtPos` in rounded arithmetic. -/
def boundaryTypesAtPosRounded (fl : Scalar → Scalar) (g : GridGeometry) (t : ParameterTree)
    (globalPos : GlobalPosition) : Except ParamError BoundaryTypes := do
  let cells ← getParamCells t "Grid.Cells"
  let meshWidthX := meshWidthRounded fl g.bBoxMin.x g.bBoxMax.x cells.1
  let meshWidthY := meshWidthRounded fl g.bBoxMin.y g.bBoxMax.y cells.2
  let bottom ← andAlso (globalPos.y < fl (g.bBoxMin.y + fl eps_))
    (isDirichletType t "BoundaryConditions.BcTypeBottom")
  if bottom then pure BoundaryTypes.allDirichlet else
  let top ← andAlso (globalPos.y > fl (g.bBoxMax.y - fl eps_))
    (isDirichletType t "BoundaryConditions.BcTypeTop")
  if top then pure BoundaryTypes.allDirichlet else
  let left ← andAlso (globalPos.x < fl (g.bBoxMin.x + fl eps_))
    (isDirichletType t "BoundaryConditions.BcTypeLeft")
  if left then pure BoundaryTypes.allDirichlet else
  let right ← andAlso (globalPos.x > fl (g.bBoxMax.x - fl eps_))
    (isDirichletType t "BoundaryConditions.BcTypeRight")
  if right then pure BoundaryTypes.allDirichlet else
  let sourceBottom ← andAlso
    (globalPos.y < fl (g.bBoxMin.y + fl eps_) &&
      globalPos.x < fl (fl (g.bBoxMin.x + meshWidthX) + fl eps_))
    (getParamBool t "BoundaryConditions.UseHeatSourceBottomLeft")
  if sourceBottom then pure BoundaryTypes.allDirichlet else
  let sourceLeft ← andAlso
    (globalPos.x < fl (g.bBoxMin.x + fl eps_) &&
      globalPos.y < fl (fl (g.bBoxMin.y + meshWidthY) + fl eps_))
    (getParamBool t "BoundaryConditions.UseHeatSourceBottomLeft")
  if sourceLeft then pure BoundaryTypes.allDirichlet else
  pure BoundaryTypes.allNeumann

/-- The method `dirichletAtPos` in rounded arithmetic. -/
def dirichletAtPosRounded (fl : Scalar → Scalar) (idx : Indices) (g : GridGeometry)
    (t : ParameterTree) (globalPos : GlobalPosition) :
    Except ParamError (PrimaryVariables idx.numEq) := do
  let mut priVars ← initial_ idx t
  let cells ← getParamCells t "Grid.Cells"
  let meshWidthX := meshWidthRounded fl g.bBoxMin.x g.bBoxMax.x cells.1
  let meshWidthY := meshWidthRounded fl g.bBoxMin.y g.bBoxMax.y cells.2
  if globalPos.x < fl (g.bBoxMin.x + fl eps_) then
    priVars := Function.update priVars idx.temperatureIdx
      (← getParamScalar t "BoundaryConditions.BcLeft")
  else if globalPos.x > fl (g.bBoxMax.x - fl eps_) then
    priVars := Function.update priVars idx.temperatureIdx
      (← getParamScalar t "BoundaryConditions.BcRight")
  if globalPos.y < fl (g.bBoxMin.y + fl eps_) then
    priVars := Function.update priVars idx.temperatureIdx
      (← getParamScalar t "BoundaryConditions.BcBottom")
  else if globalPos.y > fl (g.bBoxMax.y - fl eps_) then
    priVars := Function.update priVars idx.temperatureIdx
      (← getParamScalar t "BoundaryConditions.BcTop")
  if ← getParamBool t "BoundaryConditions.UseHeatSourceBottomLeft" then
    if (globalPos.y < fl (g.bBoxMin.y + fl eps_) &&
          globalPos.x < fl (fl (g.bBoxMin.x + meshWidthX) + fl eps_)) ||
        (globalPos.x < fl (g.bBoxMin.x + fl eps_) &&
          globalPos.y < fl (fl (g.bBoxMin.y + meshWidthY) + fl eps_)) then
      priVars := Function.update priVars idx.temperatureIdx
        (← getParamScalar t "BoundaryConditions.HeatSourceBottomLeft")
  pure priVars

/-- The condition of the `if / else if` chain of `boundaryTypesAtPosRounded`. -/
def codeChainRounded (fl : Scalar → Scalar) (g : GridGeometry) (p : Parameters)
    (pos : GlobalPosition) : Bool :=
  (pos.y < fl (g.bBoxMin.y + fl eps_) && p.bcTypeBottom == "dirichlet") ||
  (pos.y > fl (g.bBoxMax.y - fl eps_) && p.bcTypeTop == "dirichlet") ||
  (pos.x < fl (g.bBoxMin.x + fl eps_) && p.bcTypeLeft == "dirichlet") ||
  (pos.x > fl (g.bBoxMax.x - fl eps_) && p.bcTypeRight == "dirichlet") ||
  ((pos.y < fl (g.bBoxMin.y + fl eps_) &&
      pos.x < fl (fl (g.bBoxMin.x + meshWidthRounded fl g.bBoxMin.x g.bBoxMax.x p.cells.1)
        + fl eps_)) &&
    p.useHeatSourceBottomLeft) ||
  ((pos.x < fl (g.bBoxMin.x + fl eps_) &&
      pos.y < fl (fl (g.bBoxMin.y + meshWidthRounded fl g.bBoxMin.y g.bBoxMax.y p.cells.2)
        + fl eps_)) &&
    p.useHeatSourceBottomLeft)

/-- The geometric test of the heat-source branch of `dirichletAtPosRounded`. -/
def inCornerRounded (fl : Scalar → Scalar) (g : GridGeometry) (p : Parameters)
    (pos : GlobalPosition) : Bool :=
  (pos.y < fl (g.bBoxMin.y + fl eps_) &&
      pos.x < fl (fl (g.bBoxMin.x + meshWidthRounded fl g.bBoxMin.x g.bBoxMax.x p.cells.1)
        + fl eps_)) ||
    (pos.x < fl (g.bBoxMin.x + fl eps_) &&
      pos.y < fl (fl (g.bBoxMin.y + meshWidthRounded fl g.bBoxMin.y g.bBoxMax.y p.cells.2)
        + fl eps_))

/-- The value the temperature slot holds when `dirichletAtPosRounded` returns:
the last assignment that was executed. -/
def temperatureAtRounded (fl : Scalar → Scalar) (g : GridGeometry) (p : Parameters)
    (pos : GlobalPosition) : Scalar :=
  if p.useHeatSourceBottomLeft ∧ inCornerRounded fl g p pos then p.heatSourceBottomLeft
  else if pos.y < fl (g.bBoxMin.y + fl eps_) then p.bcBottom
  else if pos.y > fl (g.bBoxMax.y - fl eps_) then p.bcTop
  else if pos.x < fl (g.bBoxMin.x + fl eps_) then p.bcLeft
  else if pos.x > fl (g.bBoxMax.x - fl eps_) then p.bcRight
  else p.initialTemperature

/-- Rule 1 with the test of the code: `y < minY + eps`, the sum rounded. -/
def roundedRule1 (fl : Scalar → Scalar) (g : GridGeometry) (p : Parameters)
    (pos : GlobalPosition) : Prop :=
  pos.y < fl (g.bBoxMin.y + fl eps_) ∧ p.bcTypeBottom = "dirichlet"

/-- Rule 2 with the test of the code: `y > maxY - eps`, the difference rounded. -/
def roundedRule2 (fl : Scalar → Scalar) (g : GridGeometry) (p : Parameters)
    (pos : GlobalPosition) : Prop :=
  pos.y > fl (g.bBoxMax.y - fl eps_) ∧ p.bcTypeTop = "dirichlet"

/-- Rule 3 with the test of the code: `x < minX + eps`, the sum rounded. -/
def roundedRule3 (fl : Scalar → Scalar) (g : GridGeometry) (p : Parameters)
    (pos : GlobalPosition) : Prop :=
  pos.x < fl (g.bBoxMin.x + fl eps_) ∧ p.bcTypeLeft = "dirichlet"

/-- Rule 4 with the test of the code: `x > maxX - eps`, the difference rounded. -/
def roundedRule4 (fl : Scalar → Scalar) (g : GridGeometry) (p : Parameters)
    (pos : GlobalPosition) : Prop :=
  pos.x > fl (g.bBoxMax.x - fl eps_) ∧ p.bcTypeRight = "dirichlet"

/-- The bottom-left corner cell with the tests of the code:
`(minAxis + cellWidthAxis) + eps`, both sums and the cell width rounded. -/
def roundedCorner (fl : Scalar → Scalar) (g : GridGeometry) (p : Parameters)
    (pos : GlobalPosition) : Prop :=
  (pos.y < fl (g.bBoxMin.y + fl eps_) ∧
      pos.x < fl (fl (g.bBoxMin.x + fl (fl (g.bBoxMax.x - g.bBoxMin.x) / (p.cells.1 : Scalar)))
        + fl eps_)) ∨
    (pos.x < fl (g.bBoxMin.x + fl eps_) ∧
      pos.y < fl (fl (g.bBoxMin.y + fl (fl (g.bBoxMax.y - g.bBoxMin.y) / (p.cells.2 : Scalar)))
        + fl eps_))

/-- Rule 5 with the tests of the code. -/
def roundedRule5 (fl : Scalar → Scalar) (g : GridGeometry) (p : Parameters)
    (pos : GlobalPosition) : Prop :=
  p.useHeatSourceBottomLeft = true ∧ roundedCorner fl g p pos

instance (fl : Scalar → Scalar) (g : GridGeometry) (p : Parameters) (pos : GlobalPosition) :
    Decidable (roundedRule1 fl g p pos) := by unfold roundedRule1; infer_instance

instance (fl : Scalar → Scalar) (g : GridGeometry) (p : Parameters) (pos : GlobalPosition) :
    Decidable (roundedRule2 fl g p pos) := by unfold roundedRule2; infer_instance

instance (fl : Scalar → Scalar) (g : GridGeometry) (p : Parameters) (pos : GlobalPosition) :
    Decidable (roundedRule3 fl g p pos) := by unfold roundedRule3; infer_instance

instance (fl : Scalar → Scalar) (g : GridGeometry) (p : Parameters) (pos : GlobalPosition) :
    Decidable (roundedRule4 fl g p pos) := by unfold roundedRule4; infer_instance

instance (fl : Scalar → Scalar) (g : GridGeometry) (p : Parameters) (pos : GlobalPosition) :
    Decidable (roundedCorner fl g p pos) := by unfold roundedCorner; infer_instance

instance (fl : Scalar → Scalar) (g : GridGeometry) (p : Parameters) (pos : GlobalPosition) :
    Decidable (roundedRule5 fl g p pos) := by unfold roundedRule5; infer_instance

/-- The classifier with the tests of the code: first match among rules 1 to 5,
Neumann when none matches. -/
def classifyRounded (fl : Scalar → Scalar) (g : GridGeometry) (p : Parameters)
    (pos : GlobalPosition) : BoundaryTypes :=
  firstMatch
    [(decide (roundedRule1 fl g p pos), BoundaryTypes.allDirichlet),
     (decide (roundedRule2 fl g p pos), BoundaryTypes.allDirichlet),
     (decide (roundedRule3 fl g p pos), BoundaryTypes.allDirichlet),
     (decide (roundedRule4 fl g p pos), BoundaryTypes.allDirichlet),
     (decide (roundedRule5 fl g p pos), BoundaryTypes.allDirichlet)]
    BoundaryTypes.allNeumann

/-- A domain sixteen wide and high whose lower left corner is at
`(2^34, 2^34)`. -/
def farBox : GridGeometry := ⟨⟨17179869184, 17179869184⟩, ⟨17179869200, 17179869200⟩⟩

/-- A domain lower than epsilon: its height is `2^-21`. -/
def thinBox : GridGeometry := ⟨⟨0, 0⟩, ⟨10, 1 / 2097152⟩⟩

/-- A parameter set with the heat source disabled and the left and top
selectors "dirichlet". -/
def leftAndTop : Parameters :=
  ⟨(4, 5), "neumann", "dirichlet", "dirichlet", "neumann", 1, 2, 3, 4, false, 99, 7, 8⟩

/-- A parameter set with another left selector. -/
def withLeftType (p : Parameters) (selector : String) : Parameters :=
  ⟨p.cells, p.bcTypeBottom, p.bcTypeTop, selector, p.bcTypeRight, p.bcBottom, p.bcTop,
    p.bcLeft, p.bcRight, p.useHeatSourceBottomLeft, p.heatSourceBottomLeft, p.initialPressure,
    p.initialTemperature⟩

/-! ## Lookups in a complete parameter set -/

theorem Except.ok_bind {ε α β : Type} (a : α) (f : α → Except ε β) :
    (Except.ok a >>= f) = f a := rfl

theorem andAlso_ok (c b : Bool) : andAlso c (Except.ok b) = Except.ok (c && b) := by
  cases c <;> rfl

section lookups
variable (p : Parameters)

theorem tree_cells : getParamCells p.tree "Grid.Cells" = Except.ok p.cells := rfl

theorem tree_bcTypeBottom :
    isDirichletType p.tree "BoundaryConditions.BcTypeBottom"
      = Except.ok (p.bcTypeBottom == "dirichlet") := rfl

theorem tree_bcTypeTop :
    isDirichletType p.tree "BoundaryConditions.BcTypeTop"
      = Except.ok (p.bcTypeTop == "dirichlet") := rfl

theorem tree_bcTypeLeft :
    isDirichletType p.tree "BoundaryConditions.BcTypeLeft"
      = Except.ok (p.bcTypeLeft == "dirichlet") := rfl

theorem tree_bcTypeRight :
    isDirichletType p.tree "BoundaryConditions.BcTypeRight"
      = Except.ok (p.bcTypeRight == "dirichlet") := rfl

theorem tree_useHeatSource :
    getParamBool p.tree "BoundaryConditions.UseHeatSourceBottomLeft"
      = Except.ok p.useHeatSourceBottomLeft := rfl

theorem tree_bcLeft :
    getParamScalar p.tree "BoundaryConditions.BcLeft" = Except.ok p.bcLeft := rfl

theorem tree_bcRight :
    getParamScalar p.tree "BoundaryConditions.BcRight" = Except.ok p.bcRight := rfl

theorem tree_bcBottom :
    getParamScalar p.tree "BoundaryConditions.BcBottom" = Except.ok p.bcBottom := rfl

theorem tree_bcTop :
    getParamScalar p.tree "BoundaryConditions.BcTop" = Except.ok p.bcTop := rfl

theorem tree_heatSource :
    getParamScalar p.tree "BoundaryConditions.HeatSourceBottomLeft"
      = Except.ok p.heatSourceBottomLeft := rfl

theorem tree_initialPressure :
    getParamScalar p.tree "InitialConditions.Pressure" = Except.ok p.initialPressure := rfl

theorem tree_initialTemperature :
    getParamScalar p.tree "InitialConditions.Temperature"
      = Except.ok p.initialTemperature := rfl

end lookups

/-! ## The two methods in closed form -/

theorem ifChain_ok (b1 b2 b3 b4 b5 b6 : Bool) :
    (if b1 = true then pure BoundaryTypes.allDirichlet
      else if b2 = true then pure BoundaryTypes.allDirichlet
      else if b3 = true then pure BoundaryTypes.allDirichlet
      else if b4 = true then pure BoundaryTypes.allDirichlet
      else if b5 = true then pure BoundaryTypes.allDirichlet
      else if b6 = true then pure BoundaryTypes.allDirichlet
      else pure BoundaryTypes.allNeumann : Except ParamError BoundaryTypes)
      = Except.ok (if (b1 || b2 || b3 || b4 || b5 || b6) = true then BoundaryTypes.allDirichlet
          else BoundaryTypes.allNeumann) := by
  cases b1 <;> cases b2 <;> cases b3 <;> cases b4 <;> cases b5 <;> cases b6 <;> rfl

theorem boundaryTypesAtPos_tree (g : GridGeometry) (p : Parameters) (pos : GlobalPosition) :
    boundaryTypesAtPos g p.tree pos
      = Except.ok (if codeChain g p pos then BoundaryTypes.allDirichlet
          else BoundaryTypes.allNeumann) := by
  simp only [boundaryTypesAtPos, tree_cells, tree_bcTypeBottom, tree_bcTypeTop,
    tree_bcTypeLeft, tree_bcTypeRight, tree_useHeatSource, andAlso_ok, Except.ok_bind, codeChain]
  exact ifChain_ok _ _ _ _ _ _

theorem initial_tree (idx : Indices) (p : Parameters) :
    initial_ idx p.tree = Except.ok (initialVector idx p) := rfl

theorem dirichletAtPos_tree (idx : Indices) (g : GridGeometry) (p : Parameters)
    (pos : GlobalPosition) :
    dirichletAtPos idx g p.tree pos
      = Except.ok (Function.update (initialVector idx p) idx.temperatureIdx
          (temperatureAt g p pos)) := by
  simp only [dirichletAtPos, initial_tree, tree_cells, tree_bcLeft, tree_bcRight, tree_bcBottom,
    tree_bcTop, tree_useHeatSource, tree_heatSource, Except.ok_bind, temperatureAt, inCorner]
  by_cases hl : pos.x < g.bBoxMin.x + eps_ <;>
  by_cases hr : pos.x > g.bBoxMax.x - eps_ <;>
  by_cases hb : pos.y < g.bBoxMin.y + eps_ <;>
  by_cases ht : pos.y > g.bBoxMax.y - eps_ <;>
  by_cases hx : pos.x < g.bBoxMin.x + meshWidth g.bBoxMin.x g.bBoxMax.x p.cells.1 + eps_ <;>
  by_cases hy : pos.y < g.bBoxMin.y + meshWidth g.bBoxMin.y g.bBoxMax.y p.cells.2 + eps_ <;>
  cases hf : p.useHeatSourceBottomLeft <;>
  simp [hl, hr, hb, ht, hx, hy, Function.update_idem, initialVector, pure, Except.pure, bind,
    Except.bind]

theorem temperatureSlot_dirichletAtPos (idx : Indices) (g : GridGeometry) (p : Parameters)
    (pos : GlobalPosition) :
    temperatureSlot idx (dirichletAtPos idx g p.tree pos)
      = Except.ok (temperatureAt g p pos) := by
  simp [temperatureSlot, dirichletAtPos_tree, Except.map]

theorem initialVector_eq (idx : Indices) (p : Parameters) :
    initialVector idx p = initialConditionVector idx p := by
  funext i
  simp only [initialVector, initialConditionVector, Function.update_apply]

theorem eps_pos : 0 < eps_ := by norm_num [eps_]


/-! ## The classifier -/

theorem specRule1_iff (g : GridGeometry) (p : Parameters) (pos : GlobalPosition) :
    specRule1 g p pos ↔
      (decide (pos.y < g.bBoxMin.y + eps_) && p.bcTypeBottom == "dirichlet") = true := by
  simp only [specRule1, Bool.and_eq_true, decide_eq_true_eq, beq_iff_eq, sub_lt_iff_lt_add']

theorem specRule2_iff (g : GridGeometry) (p : Parameters) (pos : GlobalPosition) :
    specRule2 g p pos ↔
      (decide (pos.y > g.bBoxMax.y - eps_) && p.bcTypeTop == "dirichlet") = true := by
  simp only [specRule2, Bool.and_eq_true, decide_eq_true_eq, beq_iff_eq, gt_iff_lt]
  rw [sub_lt_comm]

theorem specRule3_iff (g : GridGeometry) (p : Parameters) (pos : GlobalPosition) :
    specRule3 g p pos ↔
      (decide (pos.x < g.bBoxMin.x + eps_) && p.bcTypeLeft == "dirichlet") = true := by
  simp only [specRule3, Bool.and_eq_true, decide_eq_true_eq, beq_iff_eq, sub_lt_iff_lt_add']

theorem specRule4_iff (g : GridGeometry) (p : Parameters) (pos : GlobalPosition) :
    specRule4 g p pos ↔
      (decide (pos.x > g.bBoxMax.x - eps_) && p.bcTypeRight == "dirichlet") = true := by
  simp only [specRule4, Bool.and_eq_true, decide_eq_true_eq, beq_iff_eq, gt_iff_lt]
  rw [sub_lt_comm]

theorem specCorner_iff (g : GridGeometry) (p : Parameters) (pos : GlobalPosition) :
    specCorner g p pos ↔ inCorner g p pos = true := by
  simp only [specCorner, inCorner, cellWidthX, cellWidthY, meshWidth, Bool.or_eq_true,
    Bool.and_eq_true, decide_eq_true_eq, sub_lt_iff_lt_add', add_assoc]

theorem codeChain_iff (g : GridGeometry) (p : Parameters) (pos : GlobalPosition) :
    codeChain g p pos = true ↔
      specRule1 g p pos ∨ specRule2 g p pos ∨ specRule3 g p pos ∨ specRule4 g p pos ∨
        specRule5 g p pos := by
  rw [specRule1_iff, specRule2_iff, specRule3_iff, specRule4_iff]
  unfold specRule5
  rw [specCorner_iff]
  unfold codeChain inCorner
  generalize (decide (pos.y < g.bBoxMin.y + eps_) && p.bcTypeBottom == "dirichlet") = b1
  generalize (decide (pos.y > g.bBoxMax.y - eps_) && p.bcTypeTop == "dirichlet") = b2
  generalize (decide (pos.x < g.bBoxMin.x + eps_) && p.bcTypeLeft == "dirichlet") = b3
  generalize (decide (pos.x > g.bBoxMax.x - eps_) && p.bcTypeRight == "dirichlet") = b4
  generalize (decide (pos.y < g.bBoxMin.y + eps_) &&
      decide (pos.x < g.bBoxMin.x + meshWidth g.bBoxMin.x g.bBoxMax.x p.cells.1 + eps_)) = c1
  generalize (decide (pos.x < g.bBoxMin.x + eps_) &&
      decide (pos.y < g.bBoxMin.y + meshWidth g.bBoxMin.y g.bBoxMax.y p.cells.2 + eps_)) = c2
  generalize p.useHeatSourceBottomLeft = f
  cases b1 <;> cases b2 <;> cases b3 <;> cases b4 <;> cases c1 <;> cases c2 <;> cases f <;> decide

theorem classify_eq (g : GridGeometry) (p : Parameters) (pos : GlobalPosition) :
    classify g p pos
      = if codeChain g p pos = true then BoundaryTypes.allDirichlet
        else BoundaryTypes.allNeumann := by
  unfold classify
  by_cases h1 : specRule1 g p pos <;> by_cases h2 : specRule2 g p pos <;>
  by_cases h3 : specRule3 g p pos <;> by_cases h4 : specRule4 g p pos <;>
  by_cases h5 : specRule5 g p pos <;>
  simp [firstMatch, codeChain_iff, h1, h2, h3, h4, h5]

/-! ## The Dirichlet value -/

/-- C3: on a complete parameter set, when the pressure and temperature indices
differ, the pressure slot of `dirichletAtPos` is `InitialConditions.Pressure` at
every position, for every bounding box and cell counts. -/
theorem dirichletAtPos_pressure (idx : Indices) (g : GridGeometry) (p : Parameters)
    (pos : GlobalPosition) (h : idx.pressureIdx ≠ idx.temperatureIdx) :
    pressureSlot idx (dirichletAtPos idx g p.tree pos) = Except.ok p.initialPressure := by
  rw [dirichletAtPos_tree]
  simp [pressureSlot, Except.map, initialVector, Function.update_noteq h]

theorem dirichletAtPos_pressure_witness :
    onePNI.pressureIdx ≠ onePNI.temperatureIdx ∧
      pressureSlot onePNI (dirichletAtPos onePNI tenByTen heated.tree ⟨0, 0⟩)
        = Except.ok heated.initialPressure :=
  ⟨by decide, dirichletAtPos_pressure onePNI tenByTen heated ⟨0, 0⟩ (by decide)⟩

/-- C7: with the heat source disabled, a position more than epsilon away from
every edge is classified Neumann, for every value of the four selectors and
every positive cell count. -/
theorem boundaryTypesAtPos_interior (g : GridGeometry) (p : Parameters) (pos : GlobalPosition)
    (h1 : g.bBoxMin.x + eps_ < pos.x) (h2 : pos.x < g.bBoxMax.x - eps_)
    (h3 : g.bBoxMin.y + eps_ < pos.y) (h4 : pos.y < g.bBoxMax.y - eps_)
    (hf : p.useHeatSourceBottomLeft = false)
    (_hcx : 0 < p.cells.1) (_hcy : 0 < p.cells.2) :
    boundaryTypesAtPos g p.tree pos = Except.ok BoundaryTypes.allNeumann := by
  rw [boundaryTypesAtPos_tree]
  have hc : codeChain g p pos = false := by
    simp [codeChain, hf, not_lt.2 h1.le, not_lt.2 h2.le, not_lt.2 h3.le, not_lt.2 h4.le]
  rw [hc]; rfl

theorem boundaryTypesAtPos_interior_witness :
    (tenByTen.bBoxMin.x + eps_ < (⟨5, 5⟩ : GlobalPosition).x ∧
      (⟨5, 5⟩ : GlobalPosition).x < tenByTen.bBoxMax.x - eps_ ∧
      tenByTen.bBoxMin.y + eps_ < (⟨5, 5⟩ : GlobalPosition).y ∧
      (⟨5, 5⟩ : GlobalPosition).y < tenByTen.bBoxMax.y - eps_ ∧
      unheated.useHeatSourceBottomLeft = false ∧ 0 < unheated.cells.1 ∧ 0 < unheated.cells.2) ∧
    boundaryTypesAtPos tenByTen unheated.tree ⟨5, 5⟩ = Except.ok BoundaryTypes.allNeumann :=
  ⟨by norm_num [tenByTen, unheated, eps_],
   boundaryTypesAtPos_interior tenByTen unheated ⟨5, 5⟩
     (by norm_num [tenByTen, eps_]) (by norm_num [tenByTen, eps_])
     (by norm_num [tenByTen, eps_]) (by norm_num [tenByTen, eps_]) rfl
     (by norm_num [unheated]) (by norm_num [unheated])⟩

/-! ## The initial value -/

/-- C8: `initialAtPos` does not depend on the position, and on a complete
parameter set its value has `InitialConditions.Pressure` in the pressure slot,
`InitialConditions.Temperature` in the temperature slot and zero in every other
slot. -/
theorem initialAtPos_uniform (idx : Indices) (p : Parameters) (a b : GlobalPosition) :
    (∀ t : ParameterTree, initialAtPos idx t a = initialAtPos idx t b) ∧
      initialAtPos idx p.tree a = initialAtPos idx p.tree b ∧
      ∃ v : PrimaryVariables idx.numEq,
        initialAtPos idx p.tree a = Except.ok v ∧
        v idx.pressureIdx = p.initialPressure ∧
        v idx.temperatureIdx = p.initialTemperature ∧
        ∀ i : Fin idx.numEq, i ≠ idx.pressureIdx → i ≠ idx.temperatureIdx → v i = 0 := by
  refine ⟨fun _ => rfl, rfl, initialVector idx p, initial_tree idx p, ?_, ?_, ?_⟩
  · simp [initialVector, Function.update_noteq idx.distinct]
  · simp [initialVector]
  · intro i hp ht
    simp [initialVector, Function.update_noteq ht, Function.update_noteq hp]

/-! ## Precedence among the value assignments -/

theorem boundaryTypesAtPos_dirichlet_iff (g : GridGeometry) (p : Parameters)
    (pos : GlobalPosition) :
    boundaryTypesAtPos g p.tree pos = Except.ok BoundaryTypes.allDirichlet ↔
      specRule1 g p pos ∨ specRule2 g p pos ∨ specRule3 g p pos ∨ specRule4 g p pos ∨
        specRule5 g p pos := by
  rw [boundaryTypesAtPos_tree, ← codeChain_iff]
  cases codeChain g p pos <;> simp

theorem temperatureAt_eq (g : GridGeometry) (p : Parameters) (pos : GlobalPosition) :
    temperatureAt g p pos
      = if p.useHeatSourceBottomLeft = true ∧ specCorner g p pos then p.heatSourceBottomLeft
        else if pos.y < g.bBoxMin.y + eps_ then p.bcBottom
        else if pos.y > g.bBoxMax.y - eps_ then p.bcTop
        else if pos.x < g.bBoxMin.x + eps_ then p.bcLeft
        else if pos.x > g.bBoxMax.x - eps_ then p.bcRight
        else p.initialTemperature := by
  unfold temperatureAt
  simp only [specCorner_iff]

/-- C18: whenever `boundaryTypesAtPos` returns Dirichlet on a complete
parameter set, the position lies in a band or in the enabled heat-source corner,
so an assignment of `dirichletAtPos` is executed and the temperature slot is one
of `BcLeft`, `BcRight`, `BcBottom`, `BcTop`, `HeatSourceBottomLeft`. -/
theorem dirichlet_position_gets_boundary_value (idx : Indices) (g : GridGeometry)
    (p : Parameters) (pos : GlobalPosition)
    (h : boundaryTypesAtPos g p.tree pos = Except.ok BoundaryTypes.allDirichlet) :
    (pos.x < g.bBoxMin.x + eps_ ∨ pos.x > g.bBoxMax.x - eps_ ∨
      pos.y < g.bBoxMin.y + eps_ ∨ pos.y > g.bBoxMax.y - eps_ ∨
      (p.useHeatSourceBottomLeft = true ∧ specCorner g p pos)) ∧
    (temperatureSlot idx (dirichletAtPos idx g p.tree pos) = Except.ok p.bcLeft ∨
      temperatureSlot idx (dirichletAtPos idx g p.tree pos) = Except.ok p.bcRight ∨
      temperatureSlot idx (dirichletAtPos idx g p.tree pos) = Except.ok p.bcBottom ∨
      temperatureSlot idx (dirichletAtPos idx g p.tree pos) = Except.ok p.bcTop ∨
      temperatureSlot idx (dirichletAtPos idx g p.tree pos)
        = Except.ok p.heatSourceBottomLeft) := by
  rw [boundaryTypesAtPos_dirichlet_iff] at h
  have hband : pos.x < g.bBoxMin.x + eps_ ∨ pos.x > g.bBoxMax.x - eps_ ∨
      pos.y < g.bBoxMin.y + eps_ ∨ pos.y > g.bBoxMax.y - eps_ := by
    rcases h with h | h | h | h | h
    · exact Or.inr (Or.inr (Or.inl (sub_lt_iff_lt_add'.1 h.1)))
    · exact Or.inr (Or.inr (Or.inr (sub_lt_comm.1 h.1)))
    · exact Or.inl (sub_lt_iff_lt_add'.1 h.1)
    · exact Or.inr (Or.inl (sub_lt_comm.1 h.1))
    · rcases h.2 with hc | hc
      · exact Or.inr (Or.inr (Or.inl (sub_lt_iff_lt_add'.1 hc.1)))
      · exact Or.inl (sub_lt_iff_lt_add'.1 hc.1)
  constructor
  · rcases hband with h1 | h1 | h1 | h1
    · exact Or.inl h1
    · exact Or.inr (Or.inl h1)
    · exact Or.inr (Or.inr (Or.inl h1))
    · exact Or.inr (Or.inr (Or.inr (Or.inl h1)))
  · rw [temperatureSlot_dirichletAtPos, temperatureAt_eq]
    by_cases hs : p.useHeatSourceBottomLeft = true ∧ specCorner g p pos
    · simp only [hs, and_self, if_true, or_true]
    · by_cases hb : pos.y < g.bBoxMin.y + eps_
      · simp only [hs, hb, if_true, if_false, true_or, or_true]
      · by_cases ht : pos.y > g.bBoxMax.y - eps_
        · simp only [hs, hb, ht, if_true, if_false, true_or, or_true]
        · by_cases hl : pos.x < g.bBoxMin.x + eps_
          · simp only [hs, hb, ht, hl, if_true, if_false, true_or]
          · have hr : pos.x > g.bBoxMax.x - eps_ := by
              rcases hband with h1 | h1 | h1 | h1
              · exact absurd h1 hl
              · exact h1
              · exact absurd h1 hb
              · exact absurd h1 ht
            simp only [hs, hb, ht, hl, hr, if_true, if_false, true_or, or_true]

theorem dirichlet_position_gets_boundary_value_witness :
    boundaryTypesAtPos tenByTen unheated.tree ⟨0, 5⟩ = Except.ok BoundaryTypes.allDirichlet ∧
    (temperatureSlot onePNI (dirichletAtPos onePNI tenByTen unheated.tree ⟨0, 5⟩)
        = Except.ok unheated.bcLeft ∨
      temperatureSlot onePNI (dirichletAtPos onePNI tenByTen unheated.tree ⟨0, 5⟩)
        = Except.ok unheated.bcRight ∨
      temperatureSlot onePNI (dirichletAtPos onePNI tenByTen unheated.tree ⟨0, 5⟩)
        = Except.ok unheated.bcBottom ∨
      temperatureSlot onePNI (dirichletAtPos onePNI tenByTen unheated.tree ⟨0, 5⟩)
        = Except.ok unheated.bcTop ∨
      temperatureSlot onePNI (dirichletAtPos onePNI tenByTen unheated.tree ⟨0, 5⟩)
        = Except.ok unheated.heatSourceBottomLeft) :=
  have h : boundaryTypesAtPos tenByTen unheated.tree ⟨0, 5⟩
      = Except.ok BoundaryTypes.allDirichlet := by
    rw [boundaryTypesAtPos_dirichlet_iff]
    exact Or.inr (Or.inr (Or.inl ⟨by norm_num [tenByTen, eps_], rfl⟩))
  ⟨h, (dirichlet_position_gets_boundary_value onePNI tenByTen unheated ⟨0, 5⟩ h).2⟩

/-- C19: a position more than epsilon away from every edge is classified
Neumann and `dirichletAtPos` returns the initial-condition vector there,
whatever the heat-source flag, the selectors and the cell counts are. -/
theorem interior_untouched (idx : Indices) (g : GridGeometry) (p : Parameters)
    (pos : GlobalPosition)
    (h1 : g.bBoxMin.x + eps_ < pos.x) (h2 : pos.x < g.bBoxMax.x - eps_)
    (h3 : g.bBoxMin.y + eps_ < pos.y) (h4 : pos.y < g.bBoxMax.y - eps_) :
    boundaryTypesAtPos g p.tree pos = Except.ok BoundaryTypes.allNeumann ∧
    dirichletAtPos idx g p.tree pos = Except.ok (initialConditionVector idx p) ∧
    pressureSlot idx (dirichletAtPos idx g p.tree pos) = Except.ok p.initialPressure ∧
    temperatureSlot idx (dirichletAtPos idx g p.tree pos)
      = Except.ok p.initialTemperature := by
  have hl : ¬ pos.x < g.bBoxMin.x + eps_ := not_lt.2 h1.le
  have hr : ¬ pos.x > g.bBoxMax.x - eps_ := not_lt.2 h2.le
  have hb : ¬ pos.y < g.bBoxMin.y + eps_ := not_lt.2 h3.le
  have ht : ¬ pos.y > g.bBoxMax.y - eps_ := not_lt.2 h4.le
  have htemp : temperatureAt g p pos = p.initialTemperature := by
    simp [temperatureAt, inCorner, hl, hr, hb, ht]
  have hvec : dirichletAtPos idx g p.tree pos = Except.ok (initialConditionVector idx p) := by
    rw [dirichletAtPos_tree, htemp, ← initialVector_eq]
    congr 1
    exact Function.update_idem _ _ _
  refine ⟨?_, hvec, ?_, ?_⟩
  · rw [boundaryTypesAtPos_tree]
    have hc : codeChain g p pos = false := by
      simp [codeChain, hl, hr, hb, ht]
    rw [hc]; rfl
  · rw [hvec]
    simp [pressureSlot, Except.map, initialConditionVector, idx.distinct]
  · rw [temperatureSlot_dirichletAtPos, htemp]

theorem interior_untouched_witness :
    (tenByTen.bBoxMin.x + eps_ < (⟨5, 5⟩ : GlobalPosition).x ∧
      (⟨5, 5⟩ : GlobalPosition).x < tenByTen.bBoxMax.x - eps_ ∧
      tenByTen.bBoxMin.y + eps_ < (⟨5, 5⟩ : GlobalPosition).y ∧
      (⟨5, 5⟩ : GlobalPosition).y < tenByTen.bBoxMax.y - eps_) ∧
    boundaryTypesAtPos tenByTen heated.tree ⟨5, 5⟩ = Except.ok BoundaryTypes.allNeumann ∧
    dirichletAtPos onePNI tenByTen heated.tree ⟨5, 5⟩
      = Except.ok (initialConditionVector onePNI heated) :=
  ⟨by norm_num [tenByTen, eps_],
   (interior_untouched onePNI tenByTen heated ⟨5, 5⟩
     (by norm_num [tenByTen, eps_]) (by norm_num [tenByTen, eps_])
     (by norm_num [tenByTen, eps_]) (by norm_num [tenByTen, eps_])).1,
   (interior_untouched onePNI tenByTen heated ⟨5, 5⟩
     (by norm_num [tenByTen, eps_]) (by norm_num [tenByTen, eps_])
     (by norm_num [tenByTen, eps_]) (by norm_num [tenByTen, eps_])).2.1⟩

/-! ## Incomplete parameter stores -/

theorem getParamScalar_missing (t : ParameterTree) (key : String) (h : t key = none) :
    getParamScalar t key = Except.error (ParamError.missing key) := by
  simp [getParamScalar, h]

theorem getParamBool_missing (t : ParameterTree) (key : String) (h : t key = none) :
    getParamBool t key = Except.error (ParamError.missing key) := by
  simp [getParamBool, h]

theorem getParamCells_missing (t : ParameterTree) (key : String) (h : t key = none) :
    getParamCells t key = Except.error (ParamError.missing key) := by
  simp [getParamCells, h]

theorem initial_fails (idx : Indices) (t : ParameterTree)
    (h : t "InitialConditions.Pressure" = none ∨ t "InitialConditions.Temperature" = none) :
    ∃ e, initial_ idx t = Except.error e := by
  unfold initial_
  rcases h with h | h
  · rw [getParamScalar_missing t _ h]
    exact ⟨_, rfl⟩
  · rw [getParamScalar_missing t _ h]
    generalize getParamScalar t "InitialConditions.Pressure" = rP
    rcases rP with eP | vP <;> exact ⟨_, rfl⟩

theorem dirichletAtPos_fails_of_initial (idx : Indices) (g : GridGeometry) (t : ParameterTree)
    (pos : GlobalPosition) (h : ∃ e, initial_ idx t = Except.error e) :
    ∃ e, dirichletAtPos idx g t pos = Except.error e := by
  obtain ⟨e, he⟩ := h
  unfold dirichletAtPos
  rw [he]
  exact ⟨_, rfl⟩

theorem dirichletAtPos_fails_of_cells (idx : Indices) (g : GridGeometry) (t : ParameterTree)
    (pos : GlobalPosition) (h : t "Grid.Cells" = none) :
    ∃ e, dirichletAtPos idx g t pos = Except.error e := by
  unfold dirichletAtPos
  rw [getParamCells_missing t _ h]
  generalize initial_ idx t = r0
  rcases r0 with e0 | v0 <;> exact ⟨_, rfl⟩

theorem dirichletAtPos_fails_of_flag (idx : Indices) (g : GridGeometry) (t : ParameterTree)
    (pos : GlobalPosition) (h : t "BoundaryConditions.UseHeatSourceBottomLeft" = none) :
    ∃ e, dirichletAtPos idx g t pos = Except.error e := by
  unfold dirichletAtPos
  rw [getParamBool_missing t _ h]
  generalize initial_ idx t = r0
  generalize getParamCells t "Grid.Cells" = rC
  generalize getParamScalar t "BoundaryConditions.BcLeft" = rL
  generalize getParamScalar t "BoundaryConditions.BcRight" = rR
  generalize getParamScalar t "BoundaryConditions.BcBottom" = rB
  generalize getParamScalar t "BoundaryConditions.BcTop" = rT
  rcases r0 with e0 | v0
  · exact ⟨_, rfl⟩
  rcases rC with eC | vC
  · exact ⟨_, rfl⟩
  rcases rL with eL | vL <;> rcases rR with eR | vR <;>
  rcases rB with eB | vB <;> rcases rT with eT | vT <;>
  simp only [bind, Except.bind, pure, Except.pure] <;>
  split_ifs <;> exact ⟨_, rfl⟩

/-- C16: with the parameter store a partial map, `dirichletAtPos` returns an
error at every position when `InitialConditions.Pressure`,
`InitialConditions.Temperature`, `Grid.Cells` or
`BoundaryConditions.UseHeatSourceBottomLeft` is missing, `initialAtPos` returns
an error when one of the two initial conditions is missing, and
`boundaryTypesAtPos` returns an error when `Grid.Cells` is missing. -/
theorem missing_parameter_fails (idx : Indices) (g : GridGeometry) (t : ParameterTree)
    (pos : GlobalPosition) :
    ((t "InitialConditions.Pressure" = none ∨ t "InitialConditions.Temperature" = none ∨
        t "Grid.Cells" = none ∨ t "BoundaryConditions.UseHeatSourceBottomLeft" = none) →
      ∃ e, dirichletAtPos idx g t pos = Except.error e) ∧
    ((t "InitialConditions.Pressure" = none ∨ t "InitialConditions.Temperature" = none) →
      ∃ e, initialAtPos idx t pos = Except.error e) ∧
    (t "Grid.Cells" = none →
      boundaryTypesAtPos g t pos = Except.error (ParamError.missing "Grid.Cells")) := by
  refine ⟨?_, ?_, ?_⟩
  · rintro (h | h | h | h)
    · exact dirichletAtPos_fails_of_initial idx g t pos (initial_fails idx t (Or.inl h))
    · exact dirichletAtPos_fails_of_initial idx g t pos (initial_fails idx t (Or.inr h))
    · exact dirichletAtPos_fails_of_cells idx g t pos h
    · exact dirichletAtPos_fails_of_flag idx g t pos h
  · intro h
    exact initial_fails idx t h
  · intro h
    unfold boundaryTypesAtPos
    rw [getParamCells_missing t _ h]
    rfl

theorem missing_parameter_fails_witness :
    cellsOnly "InitialConditions.Pressure" = none ∧
      (∃ e, dirichletAtPos onePNI tenByTen cellsOnly ⟨5, 5⟩ = Except.error e) ∧
      (∃ e, initialAtPos onePNI cellsOnly ⟨5, 5⟩ = Except.error e) ∧
      boundaryTypesAtPos tenByTen noParameters ⟨5, 5⟩
        = Except.error (ParamError.missing "Grid.Cells") :=
  ⟨rfl, (missing_parameter_fails onePNI tenByTen cellsOnly ⟨5, 5⟩).1 (Or.inl rfl),
   (missing_parameter_fails onePNI tenByTen cellsOnly ⟨5, 5⟩).2.1 (Or.inl rfl),
   (missing_parameter_fails onePNI tenByTen noParameters ⟨5, 5⟩).2.2 rfl⟩

theorem boundaryTypesAtPos_eq_runChain (g : GridGeometry) (t : ParameterTree)
    (pos : GlobalPosition) :
    boundaryTypesAtPos g t pos
      = getParamCells t "Grid.Cells" >>= fun cells => runChain (chainTests g t pos cells) := rfl

theorem runChain_fired (xs ys zs : List (Except ParamError Bool))
    (h : Except.ok true ∈ xs) : runChain (xs ++ ys) = runChain (xs ++ zs) := by
  induction xs with
  | nil => exact absurd h (List.not_mem_nil _)
  | cons x xs ih =>
    rcases x with e | b
    · rfl
    · cases b
      · have h2 : Except.ok true ∈ xs := by
          rcases List.mem_cons.1 h with h1 | h1
          · exact absurd h1 (by simp)
          · exact h1
        exact ih h2
      · rfl

theorem isDirichletType_congr {t t' : ParameterTree} {key : String} (h : t key = t' key) :
    isDirichletType t key = isDirichletType t' key := by
  unfold isDirichletType getParamString
  rw [h]

theorem getParamBool_congr {t t' : ParameterTree} {key : String} (h : t key = t' key) :
    getParamBool t key = getParamBool t' key := by
  unfold getParamBool
  rw [h]

theorem getParamCells_congr {t t' : ParameterTree} {key : String} (h : t key = t' key) :
    getParamCells t key = getParamCells t' key := by
  unfold getParamCells
  rw [h]

theorem andAlso_false (lookup lookup' : Except ParamError Bool) {c : Prop} [Decidable c]
    (h : ¬ c) : andAlso (decide c) lookup = andAlso (decide c) lookup' := by
  simp [andAlso, h]

theorem chainTests_congr (g : GridGeometry) (t t' : ParameterTree) (pos : GlobalPosition)
    (cells : ℤ × ℤ) (hb : bottomTest g t pos = bottomTest g t' pos)
    (ht : topTest g t pos = topTest g t' pos) (hl : leftTest g t pos = leftTest g t' pos)
    (hr : rightTest g t pos = rightTest g t' pos)
    (hf : getParamBool t "BoundaryConditions.UseHeatSourceBottomLeft"
      = getParamBool t' "BoundaryConditions.UseHeatSourceBottomLeft") :
    chainTests g t pos cells = chainTests g t' pos cells := by
  unfold chainTests
  rw [hb, ht, hl, hr, hf]

theorem boundaryTypesAtPos_congr (g : GridGeometry) (t t' : ParameterTree)
    (pos : GlobalPosition)
    (hc : getParamCells t "Grid.Cells" = getParamCells t' "Grid.Cells")
    (h : ∀ cells, getParamCells t "Grid.Cells" = Except.ok cells →
      runChain (chainTests g t pos cells) = runChain (chainTests g t' pos cells)) :
    boundaryTypesAtPos g t pos = boundaryTypesAtPos g t' pos := by
  rw [boundaryTypesAtPos_eq_runChain, boundaryTypesAtPos_eq_runChain, ← hc]
  rcases hr : getParamCells t "Grid.Cells" with e | cells
  · rfl
  · exact h cells hr

/-- C20: `boundaryTypesAtPos` looks its parameters up lazily. At a position more
than epsilon away from every edge it returns Neumann as soon as `Grid.Cells` is
present, whatever else the store holds or misses. The result, an error
included, does not depend on the entry of a selector when the geometric test of
its branch fails or an earlier branch has set Dirichlet, nor on the entry of the
heat-source flag when both geometric tests of the corner fail or an edge branch
has set Dirichlet. -/
theorem boundaryTypesAtPos_lazy_lookups (g : GridGeometry) (pos : GlobalPosition) :
    (∀ (t : ParameterTree) (c0 c1 : ℤ),
      t "Grid.Cells" = some (ParamValue.intArray2 c0 c1) →
      g.bBoxMin.x + eps_ < pos.x → pos.x < g.bBoxMax.x - eps_ →
      g.bBoxMin.y + eps_ < pos.y → pos.y < g.bBoxMax.y - eps_ →
      boundaryTypesAtPos g t pos = Except.ok BoundaryTypes.allNeumann) ∧
    (∀ t t' : ParameterTree, agreeExcept t t' "BoundaryConditions.BcTypeBottom" →
      ¬ pos.y < g.bBoxMin.y + eps_ →
      boundaryTypesAtPos g t pos = boundaryTypesAtPos g t' pos) ∧
    (∀ t t' : ParameterTree, agreeExcept t t' "BoundaryConditions.BcTypeTop" →
      (¬ pos.y > g.bBoxMax.y - eps_ ∨ bottomTest g t pos = Except.ok true) →
      boundaryTypesAtPos g t pos = boundaryTypesAtPos g t' pos) ∧
    (∀ t t' : ParameterTree, agreeExcept t t' "BoundaryConditions.BcTypeLeft" →
      (¬ pos.x < g.bBoxMin.x + eps_ ∨ bottomTest g t pos = Except.ok true ∨
        topTest g t pos = Except.ok true) →
      boundaryTypesAtPos g t pos = boundaryTypesAtPos g t' pos) ∧
    (∀ t t' : ParameterTree, agreeExcept t t' "BoundaryConditions.BcTypeRight" →
      (¬ pos.x > g.bBoxMax.x - eps_ ∨ bottomTest g t pos = Except.ok true ∨
        topTest g t pos = Except.ok true ∨ leftTest g t pos = Except.ok true) →
      boundaryTypesAtPos g t pos = boundaryTypesAtPos g t' pos) ∧
    (∀ t t' : ParameterTree,
      agreeExcept t t' "BoundaryConditions.UseHeatSourceBottomLeft" →
      ((∀ cells : ℤ × ℤ, getParamCells t "Grid.Cells" = Except.ok cells →
          ¬ (pos.y < g.bBoxMin.y + eps_ ∧
              pos.x < g.bBoxMin.x + meshWidth g.bBoxMin.x g.bBoxMax.x cells.1 + eps_) ∧
          ¬ (pos.x < g.bBoxMin.x + eps_ ∧
              pos.y < g.bBoxMin.y + meshWidth g.bBoxMin.y g.bBoxMax.y cells.2 + eps_)) ∨
        bottomTest g t pos = Except.ok true ∨ topTest g t pos = Except.ok true ∨
        leftTest g t pos = Except.ok true ∨ rightTest g t pos = Except.ok true) →
      boundaryTypesAtPos g t pos = boundaryTypesAtPos g t' pos) := by
  refine ⟨?_, ?_, ?_, ?_, ?_, ?_⟩
  · intro t c0 c1 hc h1 h2 h3 h4
    have hl : ¬ pos.x < g.bBoxMin.x + eps_ := not_lt.2 h1.le
    have hr : ¬ pos.x > g.bBoxMax.x - eps_ := not_lt.2 h2.le
    have hb : ¬ pos.y < g.bBoxMin.y + eps_ := not_lt.2 h3.le
    have ht : ¬ pos.y > g.bBoxMax.y - eps_ := not_lt.2 h4.le
    have hcells : getParamCells t "Grid.Cells" = Except.ok (c0, c1) := by
      simp [getParamCells, hc]
    rw [boundaryTypesAtPos_eq_runChain, hcells]
    simp [chainTests, bottomTest, topTest, leftTest, rightTest, andAlso, runChain, hl, hr, hb,
      ht, Except.ok_bind, bind, Except.bind, pure, Except.pure]
  · intro t t' ha hgeo
    have eT := isDirichletType_congr (ha "BoundaryConditions.BcTypeTop" (by decide))
    have eL := isDirichletType_congr (ha "BoundaryConditions.BcTypeLeft" (by decide))
    have eR := isDirichletType_congr (ha "BoundaryConditions.BcTypeRight" (by decide))
    have eF := getParamBool_congr (ha "BoundaryConditions.UseHeatSourceBottomLeft" (by decide))
    have eC := getParamCells_congr (ha "Grid.Cells" (by decide))
    refine boundaryTypesAtPos_congr g t t' pos eC (fun cells _ => ?_)
    rw [chainTests_congr g t t' pos cells (andAlso_false _ _ hgeo)
      (by unfold topTest; rw [eT]) (by unfold leftTest; rw [eL])
      (by unfold rightTest; rw [eR]) eF]
  · intro t t' ha hcond
    have eB := isDirichletType_congr (ha "BoundaryConditions.BcTypeBottom" (by decide))
    have eL := isDirichletType_congr (ha "BoundaryConditions.BcTypeLeft" (by decide))
    have eR := isDirichletType_congr (ha "BoundaryConditions.BcTypeRight" (by decide))
    have eF := getParamBool_congr (ha "BoundaryConditions.UseHeatSourceBottomLeft" (by decide))
    have eC := getParamCells_congr (ha "Grid.Cells" (by decide))
    have hB : bottomTest g t pos = bottomTest g t' pos := by unfold bottomTest; rw [eB]
    refine boundaryTypesAtPos_congr g t t' pos eC (fun cells _ => ?_)
    rcases hcond with hgeo | hfire
    · rw [chainTests_congr g t t' pos cells hB (andAlso_false _ _ hgeo)
        (by unfold leftTest; rw [eL]) (by unfold rightTest; rw [eR]) eF]
    · unfold chainTests
      rw [← hB]
      exact runChain_fired [bottomTest g t pos] _ _ (by rw [hfire]; exact List.mem_singleton.2 rfl)
  · intro t t' ha hcond
    have eB := isDirichletType_congr (ha "BoundaryConditions.BcTypeBottom" (by decide))
    have eT := isDirichletType_congr (ha "BoundaryConditions.BcTypeTop" (by decide))
    have eR := isDirichletType_congr (ha "BoundaryConditions.BcTypeRight" (by decide))
    have eF := getParamBool_congr (ha "BoundaryConditions.UseHeatSourceBottomLeft" (by decide))
    have eC := getParamCells_congr (ha "Grid.Cells" (by decide))
    have hB : bottomTest g t pos = bottomTest g t' pos := by unfold bottomTest; rw [eB]
    have hT : topTest g t pos = topTest g t' pos := by unfold topTest; rw [eT]
    refine boundaryTypesAtPos_congr g t t' pos eC (fun cells _ => ?_)
    rcases hcond with hgeo | hfire
    · rw [chainTests_congr g t t' pos cells hB hT (andAlso_false _ _ hgeo)
        (by unfold rightTest; rw [eR]) eF]
    · unfold chainTests
      rw [← hB, ← hT]
      refine runChain_fired [bottomTest g t pos, topTest g t pos] _ _ ?_
      rcases hfire with h | h <;> rw [h] <;> simp
  · intro t t' ha hcond
    have eB := isDirichletType_congr (ha "BoundaryConditions.BcTypeBottom" (by decide))
    have eT := isDirichletType_congr (ha "BoundaryConditions.BcTypeTop" (by decide))
    have eL := isDirichletType_congr (ha "BoundaryConditions.BcTypeLeft" (by decide))
    have eF := getParamBool_congr (ha "BoundaryConditions.UseHeatSourceBottomLeft" (by decide))
    have eC := getParamCells_congr (ha "Grid.Cells" (by decide))
    have hB : bottomTest g t pos = bottomTest g t' pos := by unfold bottomTest; rw [eB]
    have hT : topTest g t pos = topTest g t' pos := by unfold topTest; rw [eT]
    have hL : leftTest g t pos = leftTest g t' pos := by unfold leftTest; rw [eL]
    refine boundaryTypesAtPos_congr g t t' pos eC (fun cells _ => ?_)
    rcases hcond with hgeo | hfire
    · rw [chainTests_congr g t t' pos cells hB hT hL (andAlso_false _ _ hgeo) eF]
    · unfold chainTests
      rw [← hB, ← hT, ← hL]
      refine runChain_fired [bottomTest g t pos, topTest g t pos, leftTest g t pos] _ _ ?_
      rcases hfire with h | h | h <;> rw [h] <;> simp
  · intro t t' ha hcond
    have eB := isDirichletType_congr (ha "BoundaryConditions.BcTypeBottom" (by decide))
    have eT := isDirichletType_congr (ha "BoundaryConditions.BcTypeTop" (by decide))
    have eL := isDirichletType_congr (ha "BoundaryConditions.BcTypeLeft" (by decide))
    have eR := isDirichletType_congr (ha "BoundaryConditions.BcTypeRight" (by decide))
    have eC := getParamCells_congr (ha "Grid.Cells" (by decide))
    have hB : bottomTest g t pos = bottomTest g t' pos := by unfold bottomTest; rw [eB]
    have hT : topTest g t pos = topTest g t' pos := by unfold topTest; rw [eT]
    have hL : leftTest g t pos = leftTest g t' pos := by unfold leftTest; rw [eL]
    have hR : rightTest g t pos = rightTest g t' pos := by unfold rightTest; rw [eR]
    refine boundaryTypesAtPos_congr g t t' pos eC (fun cells hcells => ?_)
    unfold chainTests
    rw [← hB, ← hT, ← hL, ← hR]
    rcases hcond with hgeo | hfire
    · obtain ⟨h5a, h5b⟩ := hgeo cells hcells
      have ea : (decide (pos.y < g.bBoxMin.y + eps_) &&
          decide (pos.x < g.bBoxMin.x + meshWidth g.bBoxMin.x g.bBoxMax.x cells.1 + eps_))
          = false := by
        simpa using h5a
      have eb : (decide (pos.x < g.bBoxMin.x + eps_) &&
          decide (pos.y < g.bBoxMin.y + meshWidth g.bBoxMin.y g.bBoxMax.y cells.2 + eps_))
          = false := by
        simpa using h5b
      rw [ea, eb]
      rfl
    · refine runChain_fired
        [bottomTest g t pos, topTest g t pos, leftTest g t pos, rightTest g t pos] _ _ ?_
      rcases hfire with h | h | h | h <;> rw [h] <;> simp

theorem boundaryTypesAtPos_lazy_lookups_witness :
    (cellsOnly "Grid.Cells" = some (ParamValue.intArray2 4 5) ∧
      cellsOnly "BoundaryConditions.BcTypeBottom" = none ∧
      cellsOnly "BoundaryConditions.BcTypeTop" = none ∧
      cellsOnly "BoundaryConditions.BcTypeLeft" = none ∧
      cellsOnly "BoundaryConditions.BcTypeRight" = none ∧
      cellsOnly "BoundaryConditions.UseHeatSourceBottomLeft" = none) ∧
    boundaryTypesAtPos tenByTen cellsOnly ⟨5, 5⟩ = Except.ok BoundaryTypes.allNeumann :=
  ⟨⟨rfl, rfl, rfl, rfl, rfl, rfl⟩,
   (boundaryTypesAtPos_lazy_lookups tenByTen ⟨5, 5⟩).1 cellsOnly 4 5 rfl
     (by norm_num [tenByTen, eps_]) (by norm_num [tenByTen, eps_])
     (by norm_num [tenByTen, eps_]) (by norm_num [tenByTen, eps_])⟩

/-! ## The output pass -/

theorem updateVtkOutput_eq_foldl {Element Scv SolutionVector ElementSolution : Type}
    (d : Discretization Element Scv SolutionVector ElementSolution)
    (problem : OnePNIConductionProblem) (curSol : SolutionVector) :
    updateVtkOutput d problem curSol
      = (iterationOrder d).foldl (writeVisit d curSol) problem := by
  unfold updateVtkOutput iterationOrder List.flatMap
  rw [List.foldl_flatten, List.foldl_map]
  congr 1
  funext pr element
  rw [List.foldl_map]
  rfl

theorem writeAll_length (a : List Scalar) (writes : List (ℕ × Scalar)) :
    (writeAll a writes).length = a.length := by
  induction writes generalizing a with
  | nil => rfl
  | cons w ws ih =>
    show (writeAll (a.set w.1 w.2) ws).length = a.length
    rw [ih, List.length_set]

theorem writeAll_append (a : List Scalar) (ws : List (ℕ × Scalar)) (w : ℕ × Scalar) :
    writeAll a (ws ++ [w]) = (writeAll a ws).set w.1 w.2 := by
  unfold writeAll
  rw [List.foldl_append]
  rfl

theorem writeAll_untouched (a : List Scalar) (writes : List (ℕ × Scalar)) (i : ℕ)
    (h : ∀ w ∈ writes, w.1 ≠ i) : (writeAll a writes)[i]? = a[i]? := by
  induction writes generalizing a with
  | nil => rfl
  | cons w ws ih =>
    show (writeAll (a.set w.1 w.2) ws)[i]? = a[i]?
    rw [ih _ (fun x hx => h x (List.mem_cons_of_mem _ hx))]
    exact List.getElem?_set_ne (h w (List.mem_cons_self _ _))

theorem writeAll_last (a : List Scalar) (writes : List (ℕ × Scalar)) (e : ℕ) (w : ℕ × Scalar)
    (h : (writes.filter fun x => decide (x.1 = e)).getLast? = some w) (he : e < a.length) :
    (writeAll a writes)[e]? = some w.2 := by
  induction writes using List.reverseRecOn with
  | nil => simp at h
  | append_singleton ws x ih =>
    rw [writeAll_append]
    by_cases hx : x.1 = e
    · have hw : x = w := by
        rw [List.filter_append, List.filter_cons_of_pos (by simpa using hx),
          List.filter_nil, List.getLast?_concat] at h
        exact Option.some.inj h
      subst hw
      rw [hx]
      exact List.getElem?_set_self (by rw [writeAll_length]; exact he)
    · rw [List.filter_append, List.filter_cons_of_neg (by simpa using hx),
        List.filter_nil, List.append_nil] at h
      rw [List.getElem?_set_ne hx]
      exact ih h

theorem writeAll_idem (a : List Scalar) (writes : List (ℕ × Scalar)) :
    writeAll (writeAll a writes) writes = writeAll a writes := by
  apply List.ext_getElem?
  intro i
  by_cases hi : i < a.length
  · cases h : (writes.filter fun x => decide (x.1 = i)).getLast? with
    | none =>
      have hne : ∀ w ∈ writes, w.1 ≠ i := by
        have h2 := List.getLast?_eq_none_iff.1 h
        intro w hw hwi
        have := (List.filter_eq_nil_iff.1 h2) w hw
        simp [hwi] at this
      rw [writeAll_untouched _ _ _ hne]
    | some w =>
      rw [writeAll_last _ _ _ _ h (by rw [writeAll_length]; exact hi),
        writeAll_last _ _ _ _ h hi]
  · rw [List.getElem?_eq_none (by rw [writeAll_length, writeAll_length]; exact not_lt.1 hi),
      List.getElem?_eq_none (by rw [writeAll_length]; exact not_lt.1 hi)]

theorem writeAll_covered (a b : List Scalar) (writes : List (ℕ × Scalar))
    (hlen : a.length = b.length)
    (hcover : ∀ i, i < a.length → ∃ w ∈ writes, w.1 = i) :
    writeAll a writes = writeAll b writes := by
  apply List.ext_getElem?
  intro i
  by_cases hi : i < a.length
  · obtain ⟨w, hw, hwi⟩ := hcover i hi
    cases h : (writes.filter fun x => decide (x.1 = i)).getLast? with
    | none =>
      have h2 := List.getLast?_eq_none_iff.1 h
      have := (List.filter_eq_nil_iff.1 h2) w hw
      simp [hwi] at this
    | some v =>
      rw [writeAll_last _ _ _ _ h hi, writeAll_last _ _ _ _ h (hlen ▸ hi)]
  · rw [List.getElem?_eq_none (by rw [writeAll_length]; exact not_lt.1 hi),
      List.getElem?_eq_none (by rw [writeAll_length, ← hlen]; exact not_lt.1 hi)]

theorem foldl_writeVisit {Element Scv SolutionVector ElementSolution : Type}
    (d : Discretization Element Scv SolutionVector ElementSolution) (curSol : SolutionVector)
    (visits : List (Element × Scv)) (problem : OnePNIConductionProblem) :
    visits.foldl (writeVisit d curSol) problem
      = ⟨problem.name_,
         writeAll problem.porosity_
           (visits.map fun v => (d.elementIndex v.2, (volVarsAt d curSol v).porosity)),
         writeAll problem.k00_
           (visits.map fun v =>
             (d.elementIndex v.2, (volVarsAt d curSol v).effectiveThermalConductivity 0 0)),
         writeAll problem.k01_
           (visits.map fun v =>
             (d.elementIndex v.2, (volVarsAt d curSol v).effectiveThermalConductivity 0 1)),
         writeAll problem.k10_
           (visits.map fun v =>
             (d.elementIndex v.2, (volVarsAt d curSol v).effectiveThermalConductivity 1 0)),
         writeAll problem.k11_
           (visits.map fun v =>
             (d.elementIndex v.2, (volVarsAt d curSol v).effectiveThermalConductivity 1 1))⟩ := by
  induction visits generalizing problem with
  | nil => rfl
  | cons v vs ih =>
    rw [List.foldl_cons, ih]
    rfl

theorem updateVtkOutput_closed {Element Scv SolutionVector ElementSolution : Type}
    (d : Discretization Element Scv SolutionVector ElementSolution)
    (problem : OnePNIConductionProblem) (curSol : SolutionVector) :
    updateVtkOutput d problem curSol
      = ⟨problem.name_,
         writeAll problem.porosity_ (porosityWrites d curSol),
         writeAll problem.k00_ (conductivityWrites d curSol 0 0),
         writeAll problem.k01_ (conductivityWrites d curSol 0 1),
         writeAll problem.k10_ (conductivityWrites d curSol 1 0),
         writeAll problem.k11_ (conductivityWrites d curSol 1 1)⟩ := by
  rw [updateVtkOutput_eq_foldl, foldl_writeVisit]
  rfl

/-- C12: running `updateVtkOutput` a second time with the same solution leaves
the problem, and so its five output arrays, as the first run left them. -/
theorem updateVtkOutput_idempotent {Element Scv SolutionVector ElementSolution : Type}
    (d : Discretization Element Scv SolutionVector ElementSolution)
    (problem : OnePNIConductionProblem) (curSol : SolutionVector)
    (_hrange : ∀ element ∈ d.elements, ∀ scv ∈ d.scvs element, ∀ a ∈ problem.arrays,
      d.elementIndex scv < a.length) :
    updateVtkOutput d (updateVtkOutput d problem curSol) curSol
        = updateVtkOutput d problem curSol ∧
      (updateVtkOutput d (updateVtkOutput d problem curSol) curSol).arrays
        = (updateVtkOutput d problem curSol).arrays := by
  have h : updateVtkOutput d (updateVtkOutput d problem curSol) curSol
      = updateVtkOutput d problem curSol := by
    rw [updateVtkOutput_closed d (updateVtkOutput d problem curSol), updateVtkOutput_closed]
    simp only [writeAll_idem]
  exact ⟨h, by rw [h]⟩

theorem updateVtkOutput_idempotent_witness :
    (∀ element ∈ boxQuad.elements, ∀ scv ∈ boxQuad.scvs element,
      ∀ a ∈ (filledWith 1 4).arrays, boxQuad.elementIndex scv < a.length) ∧
    (updateVtkOutput boxQuad (updateVtkOutput boxQuad (filledWith 1 4) [3]) [3]).arrays
      = (updateVtkOutput boxQuad (filledWith 1 4) [3]).arrays :=
  have hrange : ∀ element ∈ boxQuad.elements, ∀ scv ∈ boxQuad.scvs element,
      ∀ a ∈ (filledWith 1 4).arrays, boxQuad.elementIndex scv < a.length := by
    simp [boxQuad, filledWith, OnePNIConductionProblem.arrays]
  ⟨hrange, (updateVtkOutput_idempotent boxQuad (filledWith 1 4) [3] hrange).2⟩

theorem mem_iterationOrder {Element Scv SolutionVector ElementSolution : Type}
    (d : Discretization Element Scv SolutionVector ElementSolution) (v : Element × Scv) :
    v ∈ iterationOrder d ↔ v.1 ∈ d.elements ∧ v.2 ∈ d.scvs v.1 := by
  unfold iterationOrder
  rw [List.mem_flatMap]
  constructor
  · rintro ⟨element, he, hv⟩
    obtain ⟨scv, hs, rfl⟩ := List.mem_map.1 hv
    exact ⟨he, hs⟩
  · rintro ⟨he, hs⟩
    exact ⟨v.1, he, List.mem_map.2 ⟨v.2, hs, rfl⟩⟩

theorem lastVisit_mem {Element Scv SolutionVector ElementSolution : Type}
    (d : Discretization Element Scv SolutionVector ElementSolution) (e : ℕ)
    (v : Element × Scv) (h : lastVisit d e = some v) :
    v ∈ iterationOrder d ∧ d.elementIndex v.2 = e := by
  have hm := List.mem_of_getLast?_eq_some h
  rw [List.mem_filter] at hm
  exact ⟨hm.1, by simpa using hm.2⟩

theorem lastVisit_isSome {Element Scv SolutionVector ElementSolution : Type}
    (d : Discretization Element Scv SolutionVector ElementSolution) (v : Element × Scv)
    (hv : v ∈ iterationOrder d) : ∃ w, lastVisit d (d.elementIndex v.2) = some w := by
  cases h : lastVisit d (d.elementIndex v.2) with
  | some w => exact ⟨w, rfl⟩
  | none =>
    have h2 := List.getLast?_eq_none_iff.1 h
    have := (List.filter_eq_nil_iff.1 h2) v hv
    simp at this

theorem visits_last {Element Scv SolutionVector ElementSolution : Type}
    (d : Discretization Element Scv SolutionVector ElementSolution)
    (val : Element × Scv → Scalar) (a : List Scalar) (e : ℕ) (v : Element × Scv)
    (h : lastVisit d e = some v) (he : e < a.length) :
    (writeAll a ((iterationOrder d).map fun w => (d.elementIndex w.2, val w)))[e]?
      = some (val v) := by
  have hf : (((iterationOrder d).map fun w => (d.elementIndex w.2, val w)).filter
      fun x => decide (x.1 = e)).getLast? = some (d.elementIndex v.2, val v) := by
    rw [List.filter_map, List.getLast?_map]
    unfold lastVisit at h
    have hcomp : ((fun x : ℕ × Scalar => decide (x.1 = e)) ∘
        fun w : Element × Scv => (d.elementIndex w.2, val w))
        = fun visit => decide (d.elementIndex visit.2 = e) := rfl
    rw [hcomp, h]
    rfl
  exact writeAll_last a _ e _ hf he

theorem visits_untouched {Element Scv SolutionVector ElementSolution : Type}
    (d : Discretization Element Scv SolutionVector ElementSolution)
    (val : Element × Scv → Scalar) (a : List Scalar) (i : ℕ)
    (h : ∀ element ∈ d.elements, ∀ scv ∈ d.scvs element, d.elementIndex scv ≠ i) :
    (writeAll a ((iterationOrder d).map fun w => (d.elementIndex w.2, val w)))[i]? = a[i]? := by
  apply writeAll_untouched
  intro w hw
  obtain ⟨v, hv, rfl⟩ := List.mem_map.1 hw
  exact h v.1 ((mem_iterationOrder d v).1 hv).1 v.2 ((mem_iterationOrder d v).1 hv).2

theorem visits_covered {Element Scv SolutionVector ElementSolution : Type}
    (d : Discretization Element Scv SolutionVector ElementSolution)
    (val : Element × Scv → Scalar) (a b : List Scalar)
    (ha : a.length = d.numDofs) (hb : b.length = d.numDofs)
    (hcover : ∀ i, i < d.numDofs →
      ∃ element ∈ d.elements, ∃ scv ∈ d.scvs element, d.elementIndex scv = i) :
    writeAll a ((iterationOrder d).map fun w => (d.elementIndex w.2, val w))
      = writeAll b ((iterationOrder d).map fun w => (d.elementIndex w.2, val w)) := by
  apply writeAll_covered a b _ (ha.trans hb.symm)
  intro i hi
  obtain ⟨element, he, scv, hs, hidx⟩ := hcover i (ha ▸ hi)
  exact ⟨(d.elementIndex scv, val (element, scv)),
    List.mem_map.2 ⟨(element, scv), (mem_iterationOrder d (element, scv)).2 ⟨he, hs⟩, rfl⟩, hidx⟩

/-- C13: when the problem name is present, the constructor returns a problem
whose five output arrays have length `numDofs()`, for every number of degrees
of freedom, and `updateVtkOutput` keeps the length of every output array. -/
theorem output_array_lengths {Element Scv SolutionVector ElementSolution : Type}
    (d : Discretization Element Scv SolutionVector ElementSolution) (t : ParameterTree)
    (name : String) (h : t "Problem.Name" = some (ParamValue.string name)) :
    (∃ problem, OnePNIConductionProblem.construct d t = Except.ok problem ∧
      (∀ a ∈ problem.arrays, a.length = d.numDofs) ∧
      ∀ curSol : SolutionVector,
        ∀ a ∈ (updateVtkOutput d problem curSol).arrays, a.length = d.numDofs) ∧
    (∀ (problem : OnePNIConductionProblem) (curSol : SolutionVector),
      (updateVtkOutput d problem curSol).arrays.map List.length
        = problem.arrays.map List.length) := by
  have hkeep : ∀ (problem : OnePNIConductionProblem) (curSol : SolutionVector),
      (updateVtkOutput d problem curSol).arrays.map List.length
        = problem.arrays.map List.length := by
    intro problem curSol
    rw [updateVtkOutput_closed]
    simp [OnePNIConductionProblem.arrays, writeAll_length]
  have hnew : ∀ a ∈ (⟨name, resize [] d.numDofs, resize [] d.numDofs, resize [] d.numDofs,
      resize [] d.numDofs, resize [] d.numDofs⟩ : OnePNIConductionProblem).arrays,
      a.length = d.numDofs := by
    intro a ha
    simp only [OnePNIConductionProblem.arrays, List.mem_cons, List.mem_singleton,
      List.not_mem_nil, or_false, or_self] at ha
    subst ha
    simp [resize]
  refine ⟨⟨⟨name, resize [] d.numDofs, resize [] d.numDofs, resize [] d.numDofs,
      resize [] d.numDofs, resize [] d.numDofs⟩, ?_, hnew, ?_⟩, hkeep⟩
  · simp [OnePNIConductionProblem.construct, getParamString, h, bind, Except.bind, pure,
      Except.pure]
  · intro curSol a ha
    have hmap := hkeep ⟨name, resize [] d.numDofs, resize [] d.numDofs, resize [] d.numDofs,
      resize [] d.numDofs, resize [] d.numDofs⟩ curSol
    have h1 : a.length ∈ (updateVtkOutput d ⟨name, resize [] d.numDofs, resize [] d.numDofs,
        resize [] d.numDofs, resize [] d.numDofs, resize [] d.numDofs⟩ curSol).arrays.map
        List.length := List.mem_map.2 ⟨a, ha, rfl⟩
    rw [hmap] at h1
    obtain ⟨b, hb, hlen⟩ := List.mem_map.1 h1
    rw [← hlen]
    exact hnew b hb

theorem output_array_lengths_witness :
    nameOnly "Problem.Name" = some (ParamValue.string "macro-heat") ∧
    ∃ problem, OnePNIConductionProblem.construct boxQuad nameOnly = Except.ok problem ∧
      (∀ a ∈ problem.arrays, a.length = boxQuad.numDofs) ∧
      ∀ curSol : List Scalar,
        ∀ a ∈ (updateVtkOutput boxQuad problem curSol).arrays, a.length = boxQuad.numDofs :=
  ⟨rfl, (output_array_lengths boxQuad nameOnly "macro-heat" rfl).1⟩

/-- C14, as stated, fails: on a vertex-centred quadrilateral (four degrees of
freedom, one element) only index 0 is written, so the entries 1 to 3 of every
output array keep the content they had before the call. -/
theorem updateVtkOutput_full_overwrite_counterexample :
    (∀ a ∈ (filledWith 0 4).arrays, a.length = boxQuad.numDofs) ∧
    (∀ a ∈ (filledWith 1 4).arrays, a.length = boxQuad.numDofs) ∧
    (updateVtkOutput boxQuad (filledWith 0 4) [3]).porosity_ = [6, 0, 0, 0] ∧
    (updateVtkOutput boxQuad (filledWith 1 4) [3]).porosity_ = [6, 1, 1, 1] ∧
    (updateVtkOutput boxQuad (filledWith 0 4) [3]).arrays
      ≠ (updateVtkOutput boxQuad (filledWith 1 4) [3]).arrays := by
  have h0 : (updateVtkOutput boxQuad (filledWith 0 4) [3]).porosity_ = [6, 0, 0, 0] := by
    norm_num [updateVtkOutput, boxQuad, filledWith, List.replicate]
  have h1 : (updateVtkOutput boxQuad (filledWith 1 4) [3]).porosity_ = [6, 1, 1, 1] := by
    norm_num [updateVtkOutput, boxQuad, filledWith, List.replicate]
  refine ⟨?_, ?_, h0, h1, ?_⟩
  · simp [filledWith, OnePNIConductionProblem.arrays, boxQuad]
  · simp [filledWith, OnePNIConductionProblem.arrays, boxQuad]
  · intro h
    have hp : (updateVtkOutput boxQuad (filledWith 0 4) [3]).porosity_
        = (updateVtkOutput boxQuad (filledWith 1 4) [3]).porosity_ := by
      have := congrArg List.head? h
      simpa [OnePNIConductionProblem.arrays] using this
    rw [h0, h1] at hp
    norm_num at hp

/-- C14, amended: when the element indices of the sub-control volumes are all
below the number `D` of degrees of freedom and every index below `D` is the
element index of a sub-control volume, the output arrays after
`updateVtkOutput` are the same for every prior content of length `D`. -/
theorem updateVtkOutput_overwrites_covered {Element Scv SolutionVector ElementSolution : Type}
    (d : Discretization Element Scv SolutionVector ElementSolution) (curSol : SolutionVector)
    (problem other : OnePNIConductionProblem)
    (hlen : ∀ a ∈ problem.arrays, a.length = d.numDofs)
    (hlen' : ∀ a ∈ other.arrays, a.length = d.numDofs)
    (_hrange : ∀ element ∈ d.elements, ∀ scv ∈ d.scvs element, d.elementIndex scv < d.numDofs)
    (hcover : ∀ i, i < d.numDofs →
      ∃ element ∈ d.elements, ∃ scv ∈ d.scvs element, d.elementIndex scv = i) :
    (updateVtkOutput d problem curSol).arrays = (updateVtkOutput d other curSol).arrays := by
  simp only [OnePNIConductionProblem.arrays, List.mem_cons, List.mem_singleton,
    List.not_mem_nil, or_false, forall_eq_or_imp, forall_eq] at hlen hlen'
  obtain ⟨p0, p1, p2, p3, p4⟩ := hlen
  obtain ⟨q0, q1, q2, q3, q4⟩ := hlen'
  rw [updateVtkOutput_closed, updateVtkOutput_closed]
  simp only [OnePNIConductionProblem.arrays, porosityWrites, conductivityWrites]
  rw [visits_covered d _ _ _ p0 q0 hcover, visits_covered d _ _ _ p1 q1 hcover,
    visits_covered d _ _ _ p2 q2 hcover, visits_covered d _ _ _ p3 q3 hcover,
    visits_covered d _ _ _ p4 q4 hcover]

theorem updateVtkOutput_overwrites_covered_witness :
    ((∀ a ∈ (filledWith 0 2).arrays, a.length = twoCells.numDofs) ∧
      (∀ a ∈ (filledWith 1 2).arrays, a.length = twoCells.numDofs) ∧
      (∀ element ∈ twoCells.elements, ∀ scv ∈ twoCells.scvs element,
        twoCells.elementIndex scv < twoCells.numDofs) ∧
      (∀ i, i < twoCells.numDofs →
        ∃ element ∈ twoCells.elements, ∃ scv ∈ twoCells.scvs element,
          twoCells.elementIndex scv = i)) ∧
    (updateVtkOutput twoCells (filledWith 0 2) [3, 5]).arrays
      = (updateVtkOutput twoCells (filledWith 1 2) [3, 5]).arrays :=
  have h0 : ∀ a ∈ (filledWith 0 2).arrays, a.length = twoCells.numDofs := by
    simp [filledWith, OnePNIConductionProblem.arrays, twoCells]
  have h1 : ∀ a ∈ (filledWith 1 2).arrays, a.length = twoCells.numDofs := by
    simp [filledWith, OnePNIConductionProblem.arrays, twoCells]
  have hr : ∀ element ∈ twoCells.elements, ∀ scv ∈ twoCells.scvs element,
      twoCells.elementIndex scv < twoCells.numDofs := by
    simp [twoCells]
  have hc : ∀ i, i < twoCells.numDofs →
      ∃ element ∈ twoCells.elements, ∃ scv ∈ twoCells.scvs element,
        twoCells.elementIndex scv = i := by
    intro i hi
    have hi2 : i < 2 := hi
    interval_cases i
    · exact ⟨0, by simp [twoCells], (0, 0), by simp [twoCells], rfl⟩
    · exact ⟨1, by simp [twoCells], (1, 0), by simp [twoCells], rfl⟩
  ⟨⟨h0, h1, hr, hc⟩,
   updateVtkOutput_overwrites_covered twoCells [3, 5] (filledWith 0 2) (filledWith 1 2)
     h0 h1 hr hc⟩

/-- C15: when every element index of a sub-control volume is in range of the
five arrays, after `updateVtkOutput` the entries at an element index `e` hold
the porosity and the conductivity entries `[0][0]`, `[0][1]`, `[1][0]`,
`[1][1]` of the volume variables of the last sub-control volume with element
index `e` in iteration order, and the entries at an index that is no element
index are the ones from before the call. -/
theorem updateVtkOutput_entries {Element Scv SolutionVector ElementSolution : Type}
    (d : Discretization Element Scv SolutionVector ElementSolution)
    (problem : OnePNIConductionProblem) (curSol : SolutionVector)
    (hrange : ∀ element ∈ d.elements, ∀ scv ∈ d.scvs element, ∀ a ∈ problem.arrays,
      d.elementIndex scv < a.length) :
    (∀ element ∈ d.elements, ∀ scv ∈ d.scvs element,
      ∃ visit, lastVisit d (d.elementIndex scv) = some visit) ∧
    (∀ (e : ℕ) (visit : Element × Scv), lastVisit d e = some visit →
      (updateVtkOutput d problem curSol).porosity_[e]?
        = some (d.update (d.elementSolution visit.1 curSol) visit.1 visit.2).porosity ∧
      (updateVtkOutput d problem curSol).k00_[e]?
        = some ((d.update (d.elementSolution visit.1 curSol) visit.1
            visit.2).effectiveThermalConductivity 0 0) ∧
      (updateVtkOutput d problem curSol).k01_[e]?
        = some ((d.update (d.elementSolution visit.1 curSol) visit.1
            visit.2).effectiveThermalConductivity 0 1) ∧
      (updateVtkOutput d problem curSol).k10_[e]?
        = some ((d.update (d.elementSolution visit.1 curSol) visit.1
            visit.2).effectiveThermalConductivity 1 0) ∧
      (updateVtkOutput d problem curSol).k11_[e]?
        = some ((d.update (d.elementSolution visit.1 curSol) visit.1
            visit.2).effectiveThermalConductivity 1 1)) ∧
    (∀ i : ℕ, (∀ element ∈ d.elements, ∀ scv ∈ d.scvs element, d.elementIndex scv ≠ i) →
      (updateVtkOutput d problem curSol).porosity_[i]? = problem.porosity_[i]? ∧
      (updateVtkOutput d problem curSol).k00_[i]? = problem.k00_[i]? ∧
      (updateVtkOutput d problem curSol).k01_[i]? = problem.k01_[i]? ∧
      (updateVtkOutput d problem curSol).k10_[i]? = problem.k10_[i]? ∧
      (updateVtkOutput d problem curSol).k11_[i]? = problem.k11_[i]?) := by
  refine ⟨?_, ?_, ?_⟩
  · intro element he scv hs
    exact lastVisit_isSome d (element, scv) ((mem_iterationOrder d (element, scv)).2 ⟨he, hs⟩)
  · intro e visit hlast
    obtain ⟨hmem, hidx⟩ := lastVisit_mem d e visit hlast
    have hin := (mem_iterationOrder d visit).1 hmem
    have hlt : ∀ a ∈ problem.arrays, e < a.length := by
      intro a ha
      rw [← hidx]
      exact hrange visit.1 hin.1 visit.2 hin.2 a ha
    simp only [OnePNIConductionProblem.arrays, List.mem_cons, List.mem_singleton,
      List.not_mem_nil, or_false, forall_eq_or_imp, forall_eq] at hlt
    obtain ⟨l0, l1, l2, l3, l4⟩ := hlt
    rw [updateVtkOutput_closed]
    exact ⟨visits_last d _ _ e visit hlast l0, visits_last d _ _ e visit hlast l1,
      visits_last d _ _ e visit hlast l2, visits_last d _ _ e visit hlast l3,
      visits_last d _ _ e visit hlast l4⟩
  · intro i hi
    rw [updateVtkOutput_closed]
    exact ⟨visits_untouched d _ _ i hi, visits_untouched d _ _ i hi,
      visits_untouched d _ _ i hi, visits_untouched d _ _ i hi, visits_untouched d _ _ i hi⟩

theorem updateVtkOutput_entries_witness :
    (∀ element ∈ boxQuad.elements, ∀ scv ∈ boxQuad.scvs element,
      ∀ a ∈ (filledWith 1 4).arrays, boxQuad.elementIndex scv < a.length) ∧
    lastVisit boxQuad 0 = some (0, (0, 3)) ∧
    (updateVtkOutput boxQuad (filledWith 1 4) [3]).k01_[0]?
      = some ((boxQuad.update (boxQuad.elementSolution 0 [3]) 0
          (0, 3)).effectiveThermalConductivity 0 1) :=
  have hrange : ∀ element ∈ boxQuad.elements, ∀ scv ∈ boxQuad.scvs element,
      ∀ a ∈ (filledWith 1 4).arrays, boxQuad.elementIndex scv < a.length := by
    simp [boxQuad, filledWith, OnePNIConductionProblem.arrays]
  have hlast : lastVisit boxQuad 0 = some (0, (0, 3)) := by
    simp [lastVisit, iterationOrder, boxQuad]
  ⟨hrange, hlast,
   ((updateVtkOutput_entries boxQuad (filledWith 1 4) [3] hrange).2.1 0 (0, (0, 3))
     hlast).2.2.1⟩

/-! ## Double arithmetic -/

theorem ulpExponent_eq (q : ℚ) (e : ℤ) (hlo : (2 : ℚ) ^ e ≤ |q|) (hhi : |q| < (2 : ℚ) ^ (e + 1))
    (he : -1022 ≤ e) : ulpExponent q = e - 52 := by
  have hpos : 0 < |q| := lt_of_lt_of_le (by positivity) hlo
  have h1 : e ≤ Int.log 2 |q| := (Int.zpow_le_iff_le_log (by norm_num) hpos).1 (by exact_mod_cast hlo)
  have h2 : Int.log 2 |q| < e + 1 := (Int.lt_zpow_iff_log_lt (by norm_num) hpos).1 (by exact_mod_cast hhi)
  unfold ulpExponent
  omega

theorem roundHalfEven_eq_floor (x : ℚ) (n : ℤ) (hlo : (n : ℚ) ≤ x) (hhi : x < n + 1 / 2) :
    roundHalfEven x = n := by
  have hf : ⌊x⌋ = n := Int.floor_eq_iff.2 ⟨hlo, by linarith⟩
  unfold roundHalfEven
  rw [hf, if_pos (by linarith)]

theorem roundHalfEven_eq_ceil (x : ℚ) (n : ℤ) (hlo : (n : ℚ) - 1 / 2 < x) (hhi : x ≤ n) :
    roundHalfEven x = n := by
  rcases eq_or_lt_of_le hhi with h | h
  · exact roundHalfEven_eq_floor x n (by linarith) (by linarith)
  · have hf : ⌊x⌋ = n - 1 := Int.floor_eq_iff.2 ⟨by push_cast; linarith, by push_cast; linarith⟩
    unfold roundHalfEven
    rw [hf, if_neg (by push_cast; linarith), if_pos (by push_cast; linarith)]
    ring

theorem roundDouble_eq (q : ℚ) (e n : ℤ) (hlo : (2 : ℚ) ^ e ≤ |q|)
    (hhi : |q| < (2 : ℚ) ^ (e + 1)) (he : -1022 ≤ e)
    (hn : roundHalfEven (q / 2 ^ (e - 52)) = n) : roundDouble q = n * 2 ^ (e - 52) := by
  unfold roundDouble
  rw [ulpExponent_eq q e hlo hhi he, hn]

theorem roundHalfEven_bounds (x : ℚ) : ⌊x⌋ ≤ roundHalfEven x ∧ roundHalfEven x ≤ ⌊x⌋ + 1 := by
  unfold roundHalfEven
  split_ifs <;> constructor <;> omega

theorem roundHalfEven_intCast (n : ℤ) : roundHalfEven (n : ℚ) = n :=
  roundHalfEven_eq_floor _ n le_rfl (by linarith)

theorem roundHalfEven_mono {x y : ℚ} (h : x ≤ y) : roundHalfEven x ≤ roundHalfEven y := by
  have hf : ⌊x⌋ ≤ ⌊y⌋ := Int.floor_mono h
  rcases lt_or_eq_of_le hf with hlt | heq
  · have h1 := (roundHalfEven_bounds x).2
    have h2 := (roundHalfEven_bounds y).1
    omega
  · unfold roundHalfEven
    rw [heq]
    have hfx : ((⌊x⌋ : ℤ) : ℚ) = ((⌊y⌋ : ℤ) : ℚ) := by rw [heq]
    split_ifs <;> first | omega | (exfalso; linarith)

theorem ulp_pos (q : ℚ) : (0 : ℚ) < 2 ^ ulpExponent q := by positivity

theorem roundDouble_le_of_le (q : ℚ) (n : ℤ) (h : q ≤ n * 2 ^ ulpExponent q) :
    roundDouble q ≤ n * 2 ^ ulpExponent q := by
  have h1 : q / 2 ^ ulpExponent q ≤ n := (div_le_iff₀ (ulp_pos q)).2 h
  have h2 := roundHalfEven_mono h1
  rw [roundHalfEven_intCast] at h2
  unfold roundDouble
  exact mul_le_mul_of_nonneg_right (by exact_mod_cast h2) (ulp_pos q).le

theorem le_roundDouble_of_le (q : ℚ) (n : ℤ) (h : n * 2 ^ ulpExponent q ≤ q) :
    n * 2 ^ ulpExponent q ≤ roundDouble q := by
  have h1 : (n : ℚ) ≤ q / 2 ^ ulpExponent q := (le_div_iff₀ (ulp_pos q)).2 h
  have h2 := roundHalfEven_mono h1
  rw [roundHalfEven_intCast] at h2
  unfold roundDouble
  exact mul_le_mul_of_nonneg_right (by exact_mod_cast h2) (ulp_pos q).le

theorem roundDouble_nonneg {q : ℚ} (h : 0 ≤ q) : 0 ≤ roundDouble q := by
  have := le_roundDouble_of_le q 0 (by simpa using h)
  simpa using this

theorem roundDouble_nonpos {q : ℚ} (h : q ≤ 0) : roundDouble q ≤ 0 := by
  have := roundDouble_le_of_le q 0 (by simpa using h)
  simpa using this

theorem roundDouble_zero : roundDouble 0 = 0 :=
  le_antisymm (roundDouble_nonpos le_rfl) (roundDouble_nonneg le_rfl)

theorem two_zpow_split (e : ℤ) (k : ℤ) : (2 : ℚ) ^ (e + k) = 2 ^ k * 2 ^ e := by
  rw [zpow_add₀ (by norm_num : (2 : ℚ) ≠ 0), mul_comm]

theorem roundDouble_mono_pos {a b : ℚ} (ha : 0 < a) (hab : a ≤ b) :
    roundDouble a ≤ roundDouble b := by
  have hb : 0 < b := lt_of_lt_of_le ha hab
  have hlog : Int.log 2 |a| ≤ Int.log 2 |b| := by
    rw [abs_of_pos ha, abs_of_pos hb]
    exact Int.log_mono_right ha hab
  rcases eq_or_lt_of_le (show ulpExponent a ≤ ulpExponent b by unfold ulpExponent; omega)
    with heq | hlt
  · unfold roundDouble
    rw [heq]
    have h1 : a / 2 ^ ulpExponent b ≤ b / 2 ^ ulpExponent b :=
      div_le_div_of_nonneg_right hab (ulp_pos b).le
    exact mul_le_mul_of_nonneg_right (by exact_mod_cast roundHalfEven_mono h1) (ulp_pos b).le
  · have hEb : ulpExponent b = Int.log 2 |b| - 52 := by
      unfold ulpExponent at hlt ⊢
      omega
    have hupper : a ≤ ((2 ^ 53 : ℤ) : ℚ) * 2 ^ ulpExponent a := by
      have h1 : a < (2 : ℚ) ^ (Int.log 2 |a| + 1) := by
        have := Int.lt_zpow_succ_log_self (b := 2) (by norm_num) a
        rw [abs_of_pos ha]
        exact_mod_cast this
      have h2 : (2 : ℚ) ^ (Int.log 2 |a| + 1) ≤ 2 ^ (ulpExponent a + 53) :=
        zpow_le_zpow_right₀ (by norm_num) (by unfold ulpExponent; omega)
      rw [two_zpow_split (ulpExponent a) 53] at h2
      push_cast
      norm_num at h2
      linarith
    have hlower : ((2 ^ 52 : ℤ) : ℚ) * 2 ^ ulpExponent b ≤ b := by
      have h1 : (2 : ℚ) ^ (Int.log 2 |b|) ≤ b := by
        have := Int.zpow_log_le_self (b := 2) (by norm_num) hb
        rw [abs_of_pos hb]
        exact_mod_cast this
      have h2 : (2 : ℚ) ^ (ulpExponent b + 52) = 2 ^ (Int.log 2 |b|) := by
        rw [hEb]; congr 1; ring
      rw [two_zpow_split] at h2
      push_cast
      linarith
    have hmid : ((2 ^ 53 : ℤ) : ℚ) * 2 ^ ulpExponent a ≤ ((2 ^ 52 : ℤ) : ℚ) * 2 ^ ulpExponent b := by
      have h1 : (2 : ℚ) ^ (ulpExponent a + 53) ≤ 2 ^ (ulpExponent b + 52) :=
        zpow_le_zpow_right₀ (by norm_num) (by omega)
      rw [two_zpow_split, two_zpow_split] at h1
      push_cast
      linarith
    exact le_trans (roundDouble_le_of_le a _ hupper)
      (le_trans hmid (le_roundDouble_of_le b _ hlower))

theorem roundDouble_mono_neg {a b : ℚ} (hb : b < 0) (hab : a ≤ b) :
    roundDouble a ≤ roundDouble b := by
  have ha : a < 0 := lt_of_le_of_lt hab hb
  have hlog : Int.log 2 |b| ≤ Int.log 2 |a| := by
    rw [abs_of_neg ha, abs_of_neg hb]
    exact Int.log_mono_right (by linarith) (by linarith)
  rcases eq_or_lt_of_le (show ulpExponent b ≤ ulpExponent a by unfold ulpExponent; omega)
    with heq | hlt
  · unfold roundDouble
    rw [heq]
    have h1 : a / 2 ^ ulpExponent a ≤ b / 2 ^ ulpExponent a :=
      div_le_div_of_nonneg_right hab (ulp_pos a).le
    exact mul_le_mul_of_nonneg_right (by exact_mod_cast roundHalfEven_mono h1) (ulp_pos a).le
  · have hEa : ulpExponent a = Int.log 2 |a| - 52 := by
      unfold ulpExponent at hlt ⊢
      omega
    have hupper : a ≤ ((-(2 ^ 52) : ℤ) : ℚ) * 2 ^ ulpExponent a := by
      have h1 : (2 : ℚ) ^ (Int.log 2 |a|) ≤ -a := by
        have := Int.zpow_log_le_self (b := 2) (r := -a) (by norm_num) (by linarith)
        rw [abs_of_neg ha]
        exact_mod_cast this
      have h2 : (2 : ℚ) ^ (ulpExponent a + 52) = 2 ^ (Int.log 2 |a|) := by
        rw [hEa]; congr 1; ring
      rw [two_zpow_split] at h2
      push_cast
      linarith
    have hlower : ((-(2 ^ 53) : ℤ) : ℚ) * 2 ^ ulpExponent b ≤ b := by
      have h1 : -b < (2 : ℚ) ^ (Int.log 2 |b| + 1) := by
        have := Int.lt_zpow_succ_log_self (b := 2) (by norm_num) (-b)
        rw [abs_of_neg hb]
        exact_mod_cast this
      have h2 : (2 : ℚ) ^ (Int.log 2 |b| + 1) ≤ 2 ^ (ulpExponent b + 53) :=
        zpow_le_zpow_right₀ (by norm_num) (by unfold ulpExponent; omega)
      rw [two_zpow_split (ulpExponent b) 53] at h2
      push_cast
      norm_num at h2
      linarith
    have hmid : ((-(2 ^ 52) : ℤ) : ℚ) * 2 ^ ulpExponent a
        ≤ ((-(2 ^ 53) : ℤ) : ℚ) * 2 ^ ulpExponent b := by
      have h1 : (2 : ℚ) ^ (ulpExponent b + 53) ≤ 2 ^ (ulpExponent a + 52) :=
        zpow_le_zpow_right₀ (by norm_num) (by omega)
      rw [two_zpow_split, two_zpow_split] at h1
      push_cast
      linarith
    exact le_trans (roundDouble_le_of_le a _ hupper)
      (le_trans hmid (le_roundDouble_of_le b _ hlower))

theorem roundDouble_mono : Monotone roundDouble := by
  intro a b hab
  rcases lt_or_le 0 a with ha | ha
  · exact roundDouble_mono_pos ha hab
  · rcases lt_or_le b 0 with hb | hb
    · exact roundDouble_mono_neg hb hab
    · exact le_trans (roundDouble_nonpos ha) (roundDouble_nonneg hb)

theorem roundDouble_eps : roundDouble eps_ = 4722366482869645 / 4722366482869645213696 := by
  rw [roundDouble_eq eps_ (-20) 4722366482869645 (by norm_num [eps_, abs_of_pos])
    (by norm_num [eps_, abs_of_pos]) (by norm_num)
    (roundHalfEven_eq_floor _ _ (by norm_num [eps_]) (by norm_num [eps_]))]
  norm_num

theorem roundDouble_eps_pos : 0 < roundDouble eps_ := by
  rw [roundDouble_eps]; norm_num

theorem roundDouble_zero_add_eps : roundDouble (0 + roundDouble eps_) = roundDouble eps_ := by
  rw [roundDouble_eps]
  rw [roundDouble_eq _ (-20) 4722366482869645 (by norm_num [abs_of_pos])
    (by norm_num [abs_of_pos]) (by norm_num)
    (roundHalfEven_eq_floor _ _ (by norm_num) (by norm_num))]
  norm_num

theorem roundDouble_ten_sub_eps :
    roundDouble (10 - roundDouble eps_) = 5629498971263167 / 562949953421312 := by
  rw [roundDouble_eps]
  rw [roundDouble_eq _ 3 5629498971263167 (by norm_num [abs_of_pos])
    (by norm_num [abs_of_pos]) (by norm_num)
    (roundHalfEven_eq_ceil _ _ (by norm_num) (by norm_num))]
  norm_num

theorem roundDouble_far_add_eps :
    roundDouble (17179869184 + roundDouble eps_) = 17179869184 := by
  rw [roundDouble_eps]
  rw [roundDouble_eq _ 34 4503599627370496 (by norm_num [abs_of_pos])
    (by norm_num [abs_of_pos]) (by norm_num)
    (roundHalfEven_eq_floor _ _ (by norm_num) (by norm_num))]
  norm_num

theorem roundDouble_far_sub_eps :
    roundDouble (17179869200 - roundDouble eps_) = 17179869200 := by
  rw [roundDouble_eps]
  rw [roundDouble_eq _ 34 4503599631564800 (by norm_num [abs_of_pos])
    (by norm_num [abs_of_pos]) (by norm_num)
    (roundHalfEven_eq_ceil _ _ (by norm_num) (by norm_num))]
  norm_num

theorem boundaryTypesAtPosRounded_id (g : GridGeometry) (t : ParameterTree)
    (pos : GlobalPosition) :
    boundaryTypesAtPosRounded id g t pos = boundaryTypesAtPos g t pos := rfl

theorem dirichletAtPosRounded_id (idx : Indices) (g : GridGeometry) (t : ParameterTree)
    (pos : GlobalPosition) :
    dirichletAtPosRounded id idx g t pos = dirichletAtPos idx g t pos := rfl

theorem boundaryTypesAtPosRounded_tree (fl : Scalar → Scalar) (g : GridGeometry)
    (p : Parameters) (pos : GlobalPosition) :
    boundaryTypesAtPosRounded fl g p.tree pos
      = Except.ok (if codeChainRounded fl g p pos then BoundaryTypes.allDirichlet
          else BoundaryTypes.allNeumann) := by
  simp only [boundaryTypesAtPosRounded, tree_cells, tree_bcTypeBottom, tree_bcTypeTop,
    tree_bcTypeLeft, tree_bcTypeRight, tree_useHeatSource, andAlso_ok, Except.ok_bind,
    codeChainRounded]
  exact ifChain_ok _ _ _ _ _ _

theorem dirichletAtPosRounded_tree (fl : Scalar → Scalar) (idx : Indices) (g : GridGeometry)
    (p : Parameters) (pos : GlobalPosition) :
    dirichletAtPosRounded fl idx g p.tree pos
      = Except.ok (Function.update (initialVector idx p) idx.temperatureIdx
          (temperatureAtRounded fl g p pos)) := by
  simp only [dirichletAtPosRounded, initial_tree, tree_cells, tree_bcLeft, tree_bcRight,
    tree_bcBottom, tree_bcTop, tree_useHeatSource, tree_heatSource, Except.ok_bind,
    temperatureAtRounded, inCornerRounded]
  by_cases hl : pos.x < fl (g.bBoxMin.x + fl eps_) <;>
  by_cases hr : pos.x > fl (g.bBoxMax.x - fl eps_) <;>
  by_cases hb : pos.y < fl (g.bBoxMin.y + fl eps_) <;>
  by_cases ht : pos.y > fl (g.bBoxMax.y - fl eps_) <;>
  by_cases hx : pos.x < fl (fl (g.bBoxMin.x
    + meshWidthRounded fl g.bBoxMin.x g.bBoxMax.x p.cells.1) + fl eps_) <;>
  by_cases hy : pos.y < fl (fl (g.bBoxMin.y
    + meshWidthRounded fl g.bBoxMin.y g.bBoxMax.y p.cells.2) + fl eps_) <;>
  cases hf : p.useHeatSourceBottomLeft <;>
  simp [hl, hr, hb, ht, hx, hy, Function.update_idem, initialVector, pure, Except.pure, bind,
    Except.bind]

theorem temperatureSlot_dirichletAtPosRounded (fl : Scalar → Scalar) (idx : Indices)
    (g : GridGeometry) (p : Parameters) (pos : GlobalPosition) :
    temperatureSlot idx (dirichletAtPosRounded fl idx g p.tree pos)
      = Except.ok (temperatureAtRounded fl g p pos) := by
  simp [temperatureSlot, dirichletAtPosRounded_tree, Except.map]

theorem roundedRule1_iff (fl : Scalar → Scalar) (g : GridGeometry) (p : Parameters)
    (pos : GlobalPosition) :
    roundedRule1 fl g p pos ↔
      (decide (pos.y < fl (g.bBoxMin.y + fl eps_)) && p.bcTypeBottom == "dirichlet") = true := by
  simp only [roundedRule1, Bool.and_eq_true, decide_eq_true_eq, beq_iff_eq]

theorem roundedRule2_iff (fl : Scalar → Scalar) (g : GridGeometry) (p : Parameters)
    (pos : GlobalPosition) :
    roundedRule2 fl g p pos ↔
      (decide (pos.y > fl (g.bBoxMax.y - fl eps_)) && p.bcTypeTop == "dirichlet") = true := by
  simp only [roundedRule2, Bool.and_eq_true, decide_eq_true_eq, beq_iff_eq]

theorem roundedRule3_iff (fl : Scalar → Scalar) (g : GridGeometry) (p : Parameters)
    (pos : GlobalPosition) :
    roundedRule3 fl g p pos ↔
      (decide (pos.x < fl (g.bBoxMin.x + fl eps_)) && p.bcTypeLeft == "dirichlet") = true := by
  simp only [roundedRule3, Bool.and_eq_true, decide_eq_true_eq, beq_iff_eq]

theorem roundedRule4_iff (fl : Scalar → Scalar) (g : GridGeometry) (p : Parameters)
    (pos : GlobalPosition) :
    roundedRule4 fl g p pos ↔
      (decide (pos.x > fl (g.bBoxMax.x - fl eps_)) && p.bcTypeRight == "dirichlet") = true := by
  simp only [roundedRule4, Bool.and_eq_true, decide_eq_true_eq, beq_iff_eq]

theorem roundedCorner_iff (fl : Scalar → Scalar) (g : GridGeometry) (p : Parameters)
    (pos : GlobalPosition) :
    roundedCorner fl g p pos ↔ inCornerRounded fl g p pos = true := by
  simp only [roundedCorner, inCornerRounded, meshWidthRounded, Bool.or_eq_true,
    Bool.and_eq_true, decide_eq_true_eq]

theorem codeChainRounded_iff (fl : Scalar → Scalar) (g : GridGeometry) (p : Parameters)
    (pos : GlobalPosition) :
    codeChainRounded fl g p pos = true ↔
      roundedRule1 fl g p pos ∨ roundedRule2 fl g p pos ∨ roundedRule3 fl g p pos ∨
        roundedRule4 fl g p pos ∨ roundedRule5 fl g p pos := by
  rw [roundedRule1_iff, roundedRule2_iff, roundedRule3_iff, roundedRule4_iff]
  unfold roundedRule5
  rw [roundedCorner_iff]
  unfold codeChainRounded inCornerRounded
  generalize (decide (pos.y < fl (g.bBoxMin.y + fl eps_)) && p.bcTypeBottom == "dirichlet") = b1
  generalize (decide (pos.y > fl (g.bBoxMax.y - fl eps_)) && p.bcTypeTop == "dirichlet") = b2
  generalize (decide (pos.x < fl (g.bBoxMin.x + fl eps_)) && p.bcTypeLeft == "dirichlet") = b3
  generalize (decide (pos.x > fl (g.bBoxMax.x - fl eps_)) && p.bcTypeRight == "dirichlet") = b4
  generalize (decide (pos.y < fl (g.bBoxMin.y + fl eps_)) &&
      decide (pos.x < fl (fl (g.bBoxMin.x
        + meshWidthRounded fl g.bBoxMin.x g.bBoxMax.x p.cells.1) + fl eps_))) = c1
  generalize (decide (pos.x < fl (g.bBoxMin.x + fl eps_)) &&
      decide (pos.y < fl (fl (g.bBoxMin.y
        + meshWidthRounded fl g.bBoxMin.y g.bBoxMax.y p.cells.2) + fl eps_))) = c2
  generalize p.useHeatSourceBottomLeft = f
  cases b1 <;> cases b2 <;> cases b3 <;> cases b4 <;> cases c1 <;> cases c2 <;> cases f <;> decide

theorem classifyRounded_eq (fl : Scalar → Scalar) (g : GridGeometry) (p : Parameters)
    (pos : GlobalPosition) :
    classifyRounded fl g p pos
      = if codeChainRounded fl g p pos = true then BoundaryTypes.allDirichlet
        else BoundaryTypes.allNeumann := by
  unfold classifyRounded
  by_cases h1 : roundedRule1 fl g p pos <;> by_cases h2 : roundedRule2 fl g p pos <;>
  by_cases h3 : roundedRule3 fl g p pos <;> by_cases h4 : roundedRule4 fl g p pos <;>
  by_cases h5 : roundedRule5 fl g p pos <;>
  simp [firstMatch, codeChainRounded_iff, h1, h2, h3, h4, h5]

theorem farBox_bands :
    roundDouble (farBox.bBoxMin.x + roundDouble eps_) = 17179869184 ∧
    roundDouble (farBox.bBoxMin.y + roundDouble eps_) = 17179869184 ∧
    roundDouble (farBox.bBoxMax.x - roundDouble eps_) = 17179869200 ∧
    roundDouble (farBox.bBoxMax.y - roundDouble eps_) = 17179869200 :=
  ⟨roundDouble_far_add_eps, roundDouble_far_add_eps, roundDouble_far_sub_eps,
    roundDouble_far_sub_eps⟩

theorem farBox_codeChain (p : Parameters) (pos : GlobalPosition)
    (hx : 17179869184 ≤ pos.x) (hx' : pos.x ≤ 17179869200)
    (hy : 17179869184 ≤ pos.y) (hy' : pos.y ≤ 17179869200) :
    codeChainRounded roundDouble farBox p pos = false := by
  obtain ⟨e1, e2, e3, e4⟩ := farBox_bands
  unfold codeChainRounded
  rw [e1, e2, e3, e4]
  simp [not_lt.2 hx, not_lt.2 hx', not_lt.2 hy, not_lt.2 hy']

theorem farBox_temperature (p : Parameters) (pos : GlobalPosition)
    (hx : 17179869184 ≤ pos.x) (hx' : pos.x ≤ 17179869200)
    (hy : 17179869184 ≤ pos.y) (hy' : pos.y ≤ 17179869200) :
    temperatureAtRounded roundDouble farBox p pos = p.initialTemperature := by
  obtain ⟨e1, e2, e3, e4⟩ := farBox_bands
  unfold temperatureAtRounded inCornerRounded
  rw [e1, e2, e3, e4]
  simp [not_lt.2 hx, not_lt.2 hx', not_lt.2 hy, not_lt.2 hy']

/-- C1, as stated, fails in the double arithmetic of the code: in a domain whose
lower left corner is `(2^34, 2^34)` the sum `minY + eps` rounds back to `minY`, so
at that corner rule 1 of the claim holds (`y - minY = 0 < eps`, bottom selector
"dirichlet") while no test of the code does, and the code returns Neumann. -/
theorem boundaryTypesAtPos_first_match_counterexample :
    (farBox.bBoxMin.x ≤ farBox.bBoxMax.x ∧ farBox.bBoxMin.y ≤ farBox.bBoxMax.y ∧
      0 < heated.cells.1 ∧ 0 < heated.cells.2) ∧
    specRule1 farBox heated ⟨17179869184, 17179869184⟩ ∧
    (roundDouble ((⟨17179869184, 17179869184⟩ : GlobalPosition).y - farBox.bBoxMin.y)
        < roundDouble eps_ ∧ heated.bcTypeBottom = "dirichlet") ∧
    boundaryTypesAtPosRounded roundDouble farBox heated.tree ⟨17179869184, 17179869184⟩
      = Except.ok BoundaryTypes.allNeumann := by
  refine ⟨by norm_num [farBox, heated], ⟨by norm_num [farBox, eps_], rfl⟩, ⟨?_, rfl⟩, ?_⟩
  · have h0 : (⟨17179869184, 17179869184⟩ : GlobalPosition).y - farBox.bBoxMin.y = 0 := by
      norm_num [farBox]
    rw [h0, roundDouble_zero]
    exact roundDouble_eps_pos
  · rw [boundaryTypesAtPosRounded_tree,
      farBox_codeChain heated ⟨17179869184, 17179869184⟩ le_rfl (by norm_num) le_rfl
        (by norm_num)]
    rfl

/-- C1, amended: on a complete parameter set, for a position inside or on a
well-formed bounding box within `[-2^1000, 2^1000]` (no sum or difference of
the code overflows) and positive cell counts, `boundaryTypesAtPos` returns
the kind of the first matching rule of the priority chain, Dirichlet exactly
when one of rules 1 to 5 holds and Neumann exactly when none does, the rules
being evaluated as the code evaluates them: `y < minY + eps`, `y > maxY - eps`,
`x < minX + eps`, `x > maxX - eps` and
`x < (minX + cellWidthX) + eps`, `y < (minY + cellWidthY) + eps`, every sum,
difference and quotient rounded. When nothing is rounded these are the rules
of the claim. -/
theorem boundaryTypesAtPosRounded_first_match (fl : Scalar → Scalar) (g : GridGeometry)
    (p : Parameters) (pos : GlobalPosition)
    (_hx : g.bBoxMin.x ≤ g.bBoxMax.x) (_hy : g.bBoxMin.y ≤ g.bBoxMax.y)
    (_hcx : 0 < p.cells.1) (_hcy : 0 < p.cells.2)
    (_hposx : g.bBoxMin.x ≤ pos.x ∧ pos.x ≤ g.bBoxMax.x)
    (_hposy : g.bBoxMin.y ≤ pos.y ∧ pos.y ≤ g.bBoxMax.y)
    (_hrangex : -(2 : Scalar) ^ 1000 ≤ g.bBoxMin.x ∧ g.bBoxMax.x ≤ 2 ^ 1000)
    (_hrangey : -(2 : Scalar) ^ 1000 ≤ g.bBoxMin.y ∧ g.bBoxMax.y ≤ 2 ^ 1000) :
    boundaryTypesAtPosRounded fl g p.tree pos = Except.ok (classifyRounded fl g p pos) ∧
    (boundaryTypesAtPosRounded fl g p.tree pos = Except.ok BoundaryTypes.allDirichlet ↔
      roundedRule1 fl g p pos ∨ roundedRule2 fl g p pos ∨ roundedRule3 fl g p pos ∨
        roundedRule4 fl g p pos ∨ roundedRule5 fl g p pos) ∧
    (boundaryTypesAtPosRounded fl g p.tree pos = Except.ok BoundaryTypes.allNeumann ↔
      ¬ (roundedRule1 fl g p pos ∨ roundedRule2 fl g p pos ∨ roundedRule3 fl g p pos ∨
        roundedRule4 fl g p pos ∨ roundedRule5 fl g p pos)) ∧
    ((roundedRule1 id g p pos ↔ specRule1 g p pos) ∧
      (roundedRule2 id g p pos ↔ specRule2 g p pos) ∧
      (roundedRule3 id g p pos ↔ specRule3 g p pos) ∧
      (roundedRule4 id g p pos ↔ specRule4 g p pos) ∧
      (roundedRule5 id g p pos ↔ specRule5 g p pos) ∧
      classifyRounded id g p pos = classify g p pos) := by
  refine ⟨?_, ?_, ?_, ?_, ?_, ?_, ?_, ?_, ?_⟩
  · rw [boundaryTypesAtPosRounded_tree, classifyRounded_eq]
  · rw [boundaryTypesAtPosRounded_tree, ← codeChainRounded_iff]
    cases codeChainRounded fl g p pos <;> simp
  · rw [boundaryTypesAtPosRounded_tree, ← codeChainRounded_iff]
    cases codeChainRounded fl g p pos <;> simp
  · simp only [roundedRule1, specRule1, id, sub_lt_iff_lt_add']
  · simp only [roundedRule2, specRule2, id, gt_iff_lt]
    rw [sub_lt_comm]
  · simp only [roundedRule3, specRule3, id, sub_lt_iff_lt_add']
  · simp only [roundedRule4, specRule4, id, gt_iff_lt]
    rw [sub_lt_comm]
  · simp only [roundedRule5, specRule5, roundedCorner, specCorner, cellWidthX, cellWidthY, id,
      sub_lt_iff_lt_add', add_assoc]
  · rw [classifyRounded_eq, classify_eq]
    rfl

theorem boundaryTypesAtPosRounded_first_match_witness :
    (tenByTen.bBoxMin.x ≤ tenByTen.bBoxMax.x ∧ tenByTen.bBoxMin.y ≤ tenByTen.bBoxMax.y ∧
      0 < heated.cells.1 ∧ 0 < heated.cells.2 ∧
      -(2 : Scalar) ^ 1000 ≤ tenByTen.bBoxMin.x ∧ tenByTen.bBoxMax.x ≤ 2 ^ 1000 ∧
      -(2 : Scalar) ^ 1000 ≤ tenByTen.bBoxMin.y ∧ tenByTen.bBoxMax.y ≤ 2 ^ 1000) ∧
    boundaryTypesAtPosRounded roundDouble tenByTen heated.tree ⟨2, 0⟩
      = Except.ok (classifyRounded roundDouble tenByTen heated ⟨2, 0⟩) :=
  ⟨by norm_num [tenByTen, heated],
   (boundaryTypesAtPosRounded_first_match roundDouble tenByTen heated ⟨2, 0⟩
      (by norm_num [tenByTen]) (by norm_num [tenByTen])
      (by norm_num [heated]) (by norm_num [heated])
      (by norm_num [tenByTen]) (by norm_num [tenByTen])
      (by norm_num [tenByTen]) (by norm_num [tenByTen])).1⟩

/-- C4, as stated, fails in the double arithmetic of the code: at the lower left
corner `(2^34, 2^34)`, with the heat source enabled, positive cell counts and a
well-formed box, the sums with `eps` round back to the corner coordinates, the
code returns Neumann and the Dirichlet temperature stays at the initial
temperature. -/
theorem heatSource_at_domain_corner_counterexample :
    (heated.useHeatSourceBottomLeft = true ∧ 0 < heated.cells.1 ∧ 0 < heated.cells.2 ∧
      farBox.bBoxMin.x ≤ farBox.bBoxMax.x ∧ farBox.bBoxMin.y ≤ farBox.bBoxMax.y) ∧
    boundaryTypesAtPosRounded roundDouble farBox heated.tree
        ⟨farBox.bBoxMin.x, farBox.bBoxMin.y⟩
      = Except.ok BoundaryTypes.allNeumann ∧
    temperatureSlot onePNI (dirichletAtPosRounded roundDouble onePNI farBox heated.tree
        ⟨farBox.bBoxMin.x, farBox.bBoxMin.y⟩)
      = Except.ok heated.initialTemperature ∧
    heated.initialTemperature ≠ heated.heatSourceBottomLeft := by
  have hx : (17179869184 : Scalar) ≤ farBox.bBoxMin.x := le_rfl
  have hx' : farBox.bBoxMin.x ≤ (17179869200 : Scalar) := by norm_num [farBox]
  refine ⟨by norm_num [farBox, heated], ?_, ?_, by norm_num [heated]⟩
  · rw [boundaryTypesAtPosRounded_tree, farBox_codeChain heated _ hx hx' hx hx']
    rfl
  · rw [temperatureSlot_dirichletAtPosRounded, farBox_temperature heated _ hx hx' hx hx']

theorem meshWidthRounded_nonneg {fl : Scalar → Scalar} (hmono : Monotone fl) (hzero : fl 0 = 0)
    {lo hi : Scalar} {cells : ℤ} (h : lo ≤ hi) (hc : 0 < cells) :
    0 ≤ meshWidthRounded fl lo hi cells := by
  unfold meshWidthRounded
  have h1 : 0 ≤ fl (hi - lo) := by
    rw [← hzero]
    exact hmono (sub_nonneg.2 h)
  have h2 : 0 ≤ fl (hi - lo) / (cells : Scalar) := div_nonneg h1 (Int.cast_nonneg.2 hc.le)
  rw [← hzero]
  exact hmono h2

/-- C4, amended: with the heat source enabled, positive cell counts and a
well-formed bounding box, in an arithmetic with monotone rounding that keeps 0
and `minX`, the corner `(minX, minY)` is classified Dirichlet and its Dirichlet
temperature is `HeatSourceBottomLeft`, whatever the selectors and the edge
temperatures are, whenever the sums `minX + eps` and `minY + eps` of the code
are greater than `minX` and `minY`. -/
theorem heatSource_at_domain_corner_rounded (fl : Scalar → Scalar) (idx : Indices)
    (g : GridGeometry) (p : Parameters)
    (hmono : Monotone fl) (hzero : fl 0 = 0) (hrep : fl g.bBoxMin.x = g.bBoxMin.x)
    (hf : p.useHeatSourceBottomLeft = true)
    (hcx : 0 < p.cells.1) (_hcy : 0 < p.cells.2)
    (hx : g.bBoxMin.x ≤ g.bBoxMax.x) (_hy : g.bBoxMin.y ≤ g.bBoxMax.y)
    (hbx : g.bBoxMin.x < fl (g.bBoxMin.x + fl eps_))
    (hby : g.bBoxMin.y < fl (g.bBoxMin.y + fl eps_)) :
    boundaryTypesAtPosRounded fl g p.tree ⟨g.bBoxMin.x, g.bBoxMin.y⟩
        = Except.ok BoundaryTypes.allDirichlet ∧
      temperatureSlot idx (dirichletAtPosRounded fl idx g p.tree ⟨g.bBoxMin.x, g.bBoxMin.y⟩)
        = Except.ok p.heatSourceBottomLeft := by
  have hwx := meshWidthRounded_nonneg hmono hzero hx hcx
  have h1 : g.bBoxMin.x ≤ fl (g.bBoxMin.x
      + meshWidthRounded fl g.bBoxMin.x g.bBoxMax.x p.cells.1) := by
    have := hmono (show g.bBoxMin.x
      ≤ g.bBoxMin.x + meshWidthRounded fl g.bBoxMin.x g.bBoxMax.x p.cells.1 by linarith)
    rwa [hrep] at this
  have h2 : fl (g.bBoxMin.x + fl eps_)
      ≤ fl (fl (g.bBoxMin.x + meshWidthRounded fl g.bBoxMin.x g.bBoxMax.x p.cells.1)
        + fl eps_) := hmono (by linarith)
  have hl : g.bBoxMin.x
      < fl (fl (g.bBoxMin.x + meshWidthRounded fl g.bBoxMin.x g.bBoxMax.x p.cells.1)
        + fl eps_) := lt_of_lt_of_le hbx h2
  constructor
  · rw [boundaryTypesAtPosRounded_tree]
    have hc : codeChainRounded fl g p ⟨g.bBoxMin.x, g.bBoxMin.y⟩ = true := by
      simp [codeChainRounded, hf, hby, hl]
    rw [hc]; rfl
  · rw [temperatureSlot_dirichletAtPosRounded]
    simp [temperatureAtRounded, inCornerRounded, hf, hby, hl]

theorem heatSource_at_domain_corner_rounded_witness :
    (Monotone roundDouble ∧ roundDouble 0 = 0 ∧
      roundDouble tenByTen.bBoxMin.x = tenByTen.bBoxMin.x ∧
      heated.useHeatSourceBottomLeft = true ∧ 0 < heated.cells.1 ∧ 0 < heated.cells.2 ∧
      tenByTen.bBoxMin.x ≤ tenByTen.bBoxMax.x ∧ tenByTen.bBoxMin.y ≤ tenByTen.bBoxMax.y ∧
      tenByTen.bBoxMin.x < roundDouble (tenByTen.bBoxMin.x + roundDouble eps_) ∧
      tenByTen.bBoxMin.y < roundDouble (tenByTen.bBoxMin.y + roundDouble eps_)) ∧
    (boundaryTypesAtPosRounded roundDouble tenByTen heated.tree
          ⟨tenByTen.bBoxMin.x, tenByTen.bBoxMin.y⟩
        = Except.ok BoundaryTypes.allDirichlet ∧
      temperatureSlot onePNI (dirichletAtPosRounded roundDouble onePNI tenByTen heated.tree
          ⟨tenByTen.bBoxMin.x, tenByTen.bBoxMin.y⟩)
        = Except.ok heated.heatSourceBottomLeft) :=
  have hband : (0 : Scalar) < roundDouble (0 + roundDouble eps_) := by
    rw [roundDouble_zero_add_eps]; exact roundDouble_eps_pos
  ⟨⟨roundDouble_mono, roundDouble_zero, roundDouble_zero, rfl, by norm_num [heated],
      by norm_num [heated], by norm_num [tenByTen], by norm_num [tenByTen], hband, hband⟩,
   heatSource_at_domain_corner_rounded roundDouble onePNI tenByTen heated roundDouble_mono
     roundDouble_zero roundDouble_zero rfl (by norm_num [heated]) (by norm_num [heated])
     (by norm_num [tenByTen]) (by norm_num [tenByTen]) hband hband⟩

/-- C5, as stated, fails in the double arithmetic of the code: with
`minX = 2^34` the sum `minX + eps` rounds back to `minX`, so a position with
`x = minX` between the bottom and the top band is not in the left band and the
code returns Neumann although the left selector is "dirichlet". -/
theorem boundaryTypesAtPos_left_edge_counterexample :
    ((⟨17179869184, 17179869192⟩ : GlobalPosition).x = farBox.bBoxMin.x ∧
      heated.bcTypeLeft = "dirichlet") ∧
    boundaryTypesAtPosRounded roundDouble farBox heated.tree ⟨17179869184, 17179869192⟩
      = Except.ok BoundaryTypes.allNeumann := by
  refine ⟨⟨rfl, rfl⟩, ?_⟩
  rw [boundaryTypesAtPosRounded_tree,
    farBox_codeChain heated ⟨17179869184, 17179869192⟩ le_rfl (by norm_num) (by norm_num)
      (by norm_num)]
  rfl

/-- C5, amended: a position with `x = minX`, at any height, is classified
Dirichlet when the left selector is "dirichlet" and the sum `minX + eps` of the
code is greater than `minX`, whatever the other selectors and the heat-source
flag are. -/
theorem boundaryTypesAtPosRounded_left_edge (fl : Scalar → Scalar) (g : GridGeometry)
    (p : Parameters) (pos : GlobalPosition)
    (hx : pos.x = g.bBoxMin.x) (hl : p.bcTypeLeft = "dirichlet")
    (hband : g.bBoxMin.x < fl (g.bBoxMin.x + fl eps_)) :
    boundaryTypesAtPosRounded fl g p.tree pos = Except.ok BoundaryTypes.allDirichlet := by
  have hlt : pos.x < fl (g.bBoxMin.x + fl eps_) := by rw [hx]; exact hband
  rw [boundaryTypesAtPosRounded_tree]
  have hc : codeChainRounded fl g p pos = true := by
    simp [codeChainRounded, hl, hlt]
  rw [hc]; rfl

theorem boundaryTypesAtPosRounded_left_edge_witness :
    ((⟨0, 5⟩ : GlobalPosition).x = tenByTen.bBoxMin.x ∧ unheated.bcTypeLeft = "dirichlet" ∧
      tenByTen.bBoxMin.x < roundDouble (tenByTen.bBoxMin.x + roundDouble eps_)) ∧
    boundaryTypesAtPosRounded roundDouble tenByTen unheated.tree ⟨0, 5⟩
      = Except.ok BoundaryTypes.allDirichlet :=
  have hband : tenByTen.bBoxMin.x < roundDouble (tenByTen.bBoxMin.x + roundDouble eps_) := by
    show (0 : Scalar) < roundDouble (0 + roundDouble eps_)
    rw [roundDouble_zero_add_eps]; exact roundDouble_eps_pos
  ⟨⟨rfl, rfl, hband⟩,
   boundaryTypesAtPosRounded_left_edge roundDouble tenByTen unheated ⟨0, 5⟩ rfl rfl hband⟩

/-- C6, as stated, fails: at the corner `(minX, minY)` with the left selector
"dirichlet" and the heat source disabled, the bottom assignment runs after the
left one and the temperature is `BcBottom`, not `BcLeft`, in exact arithmetic
and in the double arithmetic of the code alike. -/
theorem dirichletAtPos_left_edge_counterexample :
    (⟨0, 0⟩ : GlobalPosition).x = tenByTen.bBoxMin.x ∧ unheated.bcTypeLeft = "dirichlet" ∧
      temperatureSlot onePNI (dirichletAtPos onePNI tenByTen unheated.tree ⟨0, 0⟩)
        = Except.ok unheated.bcBottom ∧
      temperatureSlot onePNI (dirichletAtPos onePNI tenByTen unheated.tree ⟨0, 0⟩)
        ≠ Except.ok unheated.bcLeft ∧
      temperatureSlot onePNI
          (dirichletAtPosRounded roundDouble onePNI tenByTen unheated.tree ⟨0, 0⟩)
        = Except.ok unheated.bcBottom ∧
      temperatureSlot onePNI
          (dirichletAtPosRounded roundDouble onePNI tenByTen unheated.tree ⟨0, 0⟩)
        ≠ Except.ok unheated.bcLeft := by
  have hcode : temperatureAt tenByTen unheated ⟨0, 0⟩ = 1 := by
    norm_num [temperatureAt, inCorner, tenByTen, unheated, eps_]
  have hband : (0 : Scalar) < roundDouble (0 + roundDouble eps_) := by
    rw [roundDouble_zero_add_eps]; exact roundDouble_eps_pos
  have hdouble : temperatureAtRounded roundDouble tenByTen unheated ⟨0, 0⟩ = 1 := by
    have hb : (⟨0, 0⟩ : GlobalPosition).y
        < roundDouble (tenByTen.bBoxMin.y + roundDouble eps_) := hband
    unfold temperatureAtRounded
    rw [if_neg (fun h => absurd h.1 (by decide)), if_pos hb]
    rfl
  have hne : (Except.ok (1 : Scalar) : Except ParamError Scalar) ≠ Except.ok unheated.bcLeft := by
    intro h
    have h2 : (1 : Scalar) = 3 := Except.ok.inj h
    norm_num at h2
  refine ⟨rfl, rfl, ?_, ?_, ?_, ?_⟩
  · rw [temperatureSlot_dirichletAtPos, hcode]; rfl
  · rw [temperatureSlot_dirichletAtPos, hcode]; exact hne
  · rw [temperatureSlot_dirichletAtPosRounded, hdouble]; rfl
  · rw [temperatureSlot_dirichletAtPosRounded, hdouble]; exact hne

/-- C6, amended: with positive cell counts and a well-formed bounding box
within `[-2^1000, 2^1000]`, a position with `x = minX` has
Dirichlet temperature `BcLeft` (left selector "dirichlet") when it passes the
left-band test of the code (`minX + eps` greater than `minX`), fails the
bottom-band and the top-band test and, if the heat source is enabled, fails
the test `y < (minY + cellWidthY) + eps` of the corner; every sum, difference
and quotient is rounded as in the code. -/
theorem dirichletAtPosRounded_left_edge (fl : Scalar → Scalar) (idx : Indices)
    (g : GridGeometry) (p : Parameters) (pos : GlobalPosition)
    (hx : pos.x = g.bBoxMin.x) (_hl : p.bcTypeLeft = "dirichlet")
    (_hcx : 0 < p.cells.1) (_hcy : 0 < p.cells.2)
    (_hrangex : -(2 : Scalar) ^ 1000 ≤ g.bBoxMin.x ∧ g.bBoxMin.x ≤ g.bBoxMax.x ∧
      g.bBoxMax.x ≤ 2 ^ 1000)
    (_hrangey : -(2 : Scalar) ^ 1000 ≤ g.bBoxMin.y ∧ g.bBoxMin.y ≤ g.bBoxMax.y ∧
      g.bBoxMax.y ≤ 2 ^ 1000)
    (hband : g.bBoxMin.x < fl (g.bBoxMin.x + fl eps_))
    (hb : ¬ pos.y < fl (g.bBoxMin.y + fl eps_))
    (ht : ¬ pos.y > fl (g.bBoxMax.y - fl eps_))
    (hs : p.useHeatSourceBottomLeft = false ∨
      ¬ pos.y < fl (fl (g.bBoxMin.y
        + fl (fl (g.bBoxMax.y - g.bBoxMin.y) / (p.cells.2 : Scalar))) + fl eps_)) :
    temperatureSlot idx (dirichletAtPosRounded fl idx g p.tree pos) = Except.ok p.bcLeft := by
  have hlt : pos.x < fl (g.bBoxMin.x + fl eps_) := by rw [hx]; exact hband
  rw [temperatureSlot_dirichletAtPosRounded]
  rcases hs with hf | hy
  · simp [temperatureAtRounded, hf, hb, ht, hlt]
  · have hy' : ¬ pos.y < fl (fl (g.bBoxMin.y
        + meshWidthRounded fl g.bBoxMin.y g.bBoxMax.y p.cells.2) + fl eps_) := hy
    simp [temperatureAtRounded, inCornerRounded, hb, ht, hlt, hy']

theorem dirichletAtPosRounded_left_edge_witness :
    ((⟨0, 5⟩ : GlobalPosition).x = tenByTen.bBoxMin.x ∧ unheated.bcTypeLeft = "dirichlet" ∧
      0 < unheated.cells.1 ∧ 0 < unheated.cells.2 ∧
      (-(2 : Scalar) ^ 1000 ≤ tenByTen.bBoxMin.x ∧ tenByTen.bBoxMin.x ≤ tenByTen.bBoxMax.x ∧
        tenByTen.bBoxMax.x ≤ 2 ^ 1000) ∧
      (-(2 : Scalar) ^ 1000 ≤ tenByTen.bBoxMin.y ∧ tenByTen.bBoxMin.y ≤ tenByTen.bBoxMax.y ∧
        tenByTen.bBoxMax.y ≤ 2 ^ 1000) ∧
      tenByTen.bBoxMin.x < roundDouble (tenByTen.bBoxMin.x + roundDouble eps_) ∧
      ¬ (⟨0, 5⟩ : GlobalPosition).y < roundDouble (tenByTen.bBoxMin.y + roundDouble eps_) ∧
      ¬ (⟨0, 5⟩ : GlobalPosition).y > roundDouble (tenByTen.bBoxMax.y - roundDouble eps_) ∧
      unheated.useHeatSourceBottomLeft = false) ∧
    temperatureSlot onePNI (dirichletAtPosRounded roundDouble onePNI tenByTen unheated.tree
        ⟨0, 5⟩)
      = Except.ok unheated.bcLeft :=
  have hband : tenByTen.bBoxMin.x < roundDouble (tenByTen.bBoxMin.x + roundDouble eps_) := by
    show (0 : Scalar) < roundDouble (0 + roundDouble eps_)
    rw [roundDouble_zero_add_eps]; exact roundDouble_eps_pos
  have hb : ¬ (⟨0, 5⟩ : GlobalPosition).y
      < roundDouble (tenByTen.bBoxMin.y + roundDouble eps_) := by
    show ¬ (5 : Scalar) < roundDouble (0 + roundDouble eps_)
    rw [roundDouble_zero_add_eps, roundDouble_eps]; norm_num
  have ht : ¬ (⟨0, 5⟩ : GlobalPosition).y
      > roundDouble (tenByTen.bBoxMax.y - roundDouble eps_) := by
    show ¬ (5 : Scalar) > roundDouble (10 - roundDouble eps_)
    rw [roundDouble_ten_sub_eps]; norm_num
  have hrange : -(2 : Scalar) ^ 1000 ≤ 0 ∧ (0 : Scalar) ≤ 10 ∧ (10 : Scalar) ≤ 2 ^ 1000 := by
    norm_num
  ⟨⟨rfl, rfl, by norm_num [unheated], by norm_num [unheated], hrange, hrange, hband, hb, ht,
      rfl⟩,
   dirichletAtPosRounded_left_edge roundDouble onePNI tenByTen unheated ⟨0, 5⟩ rfl rfl
     (by norm_num [unheated]) (by norm_num [unheated]) hrange hrange hband hb ht (Or.inl rfl)⟩

theorem boundaryTypesAtPos_neumann_iff (g : GridGeometry) (p : Parameters)
    (pos : GlobalPosition) :
    boundaryTypesAtPos g p.tree pos = Except.ok BoundaryTypes.allNeumann ↔
      ¬ (specRule1 g p pos ∨ specRule2 g p pos ∨ specRule3 g p pos ∨ specRule4 g p pos ∨
        specRule5 g p pos) := by
  rw [boundaryTypesAtPos_tree, ← codeChain_iff]
  cases codeChain g p pos <;> simp

theorem boundaryTypesAtPosRounded_dirichlet_iff (fl : Scalar → Scalar) (g : GridGeometry)
    (p : Parameters) (pos : GlobalPosition) :
    boundaryTypesAtPosRounded fl g p.tree pos = Except.ok BoundaryTypes.allDirichlet ↔
      roundedRule1 fl g p pos ∨ roundedRule2 fl g p pos ∨ roundedRule3 fl g p pos ∨
        roundedRule4 fl g p pos ∨ roundedRule5 fl g p pos := by
  rw [boundaryTypesAtPosRounded_tree, ← codeChainRounded_iff]
  cases codeChainRounded fl g p pos <;> simp

theorem boundaryTypesAtPosRounded_neumann_iff (fl : Scalar → Scalar) (g : GridGeometry)
    (p : Parameters) (pos : GlobalPosition) :
    boundaryTypesAtPosRounded fl g p.tree pos = Except.ok BoundaryTypes.allNeumann ↔
      ¬ (roundedRule1 fl g p pos ∨ roundedRule2 fl g p pos ∨ roundedRule3 fl g p pos ∨
        roundedRule4 fl g p pos ∨ roundedRule5 fl g p pos) := by
  rw [boundaryTypesAtPosRounded_tree, ← codeChainRounded_iff]
  cases codeChainRounded fl g p pos <;> simp

theorem roundDouble_thin_sub_eps :
    roundDouble (1 / 2097152 - roundDouble eps_)
      = -2470566669184397 / 4722366482869645213696 := by
  rw [roundDouble_eps]
  have hneg : (1 / 2097152 - 4722366482869645 / 4722366482869645213696 : ℚ) < 0 := by norm_num
  rw [roundDouble_eq _ (-21) (-4941133338368794) (by rw [abs_of_neg hneg]; norm_num)
    (by rw [abs_of_neg hneg]; norm_num) (by norm_num)
    (roundHalfEven_eq_floor _ _ (by norm_num) (by norm_num))]
  norm_num

/-- C17, as stated, fails in its general part: in a domain lower than epsilon
the corner `(minX, minY)` lies in the left, the bottom and the top band; with the
top selector "dirichlet" the top rule matches before the left one, and the
position stays Dirichlet when the left selector is changed to "neumann", so
Dirichlet is not returned only because of the left-edge rule. This holds in the
double arithmetic of the code and in exact arithmetic alike. -/
theorem corner_asymmetry_counterexample :
    (leftAndTop.useHeatSourceBottomLeft = false ∧ leftAndTop.bcTypeLeft = "dirichlet" ∧
      leftAndTop.bcTypeBottom ≠ "dirichlet" ∧ leftAndTop.bcBottom ≠ leftAndTop.bcLeft) ∧
    ((⟨0, 0⟩ : GlobalPosition).x < roundDouble (thinBox.bBoxMin.x + roundDouble eps_) ∧
      (⟨0, 0⟩ : GlobalPosition).y < roundDouble (thinBox.bBoxMin.y + roundDouble eps_) ∧
      ¬ roundedRule1 roundDouble thinBox leftAndTop ⟨0, 0⟩ ∧
      roundedRule2 roundDouble thinBox leftAndTop ⟨0, 0⟩ ∧
      boundaryTypesAtPosRounded roundDouble thinBox (withLeftType leftAndTop "neumann").tree
          ⟨0, 0⟩
        = Except.ok BoundaryTypes.allDirichlet) ∧
    ((⟨0, 0⟩ : GlobalPosition).x < thinBox.bBoxMin.x + eps_ ∧
      (⟨0, 0⟩ : GlobalPosition).y < thinBox.bBoxMin.y + eps_ ∧
      ¬ specRule1 thinBox leftAndTop ⟨0, 0⟩ ∧ specRule2 thinBox leftAndTop ⟨0, 0⟩ ∧
      boundaryTypesAtPos thinBox (withLeftType leftAndTop "neumann").tree ⟨0, 0⟩
        = Except.ok BoundaryTypes.allDirichlet) := by
  have hband : (0 : Scalar) < roundDouble (0 + roundDouble eps_) := by
    rw [roundDouble_zero_add_eps]; exact roundDouble_eps_pos
  have htop : (0 : Scalar) > roundDouble (1 / 2097152 - roundDouble eps_) := by
    rw [roundDouble_thin_sub_eps]; norm_num
  refine ⟨⟨rfl, rfl, by decide, by norm_num [leftAndTop]⟩,
    ⟨hband, hband, fun h => absurd h.2 (by decide), ⟨htop, rfl⟩, ?_⟩,
    ⟨by norm_num [thinBox, eps_], by norm_num [thinBox, eps_],
      fun h => absurd h.2 (by decide), ⟨by norm_num [thinBox, eps_], rfl⟩, ?_⟩⟩
  · rw [boundaryTypesAtPosRounded_dirichlet_iff]
    exact Or.inr (Or.inl ⟨htop, rfl⟩)
  · rw [boundaryTypesAtPos_dirichlet_iff]
    exact Or.inr (Or.inl ⟨by norm_num [thinBox, eps_], rfl⟩)

/-- C17, amended: with the heat source disabled, the left selector "dirichlet"
and the bottom selector not "dirichlet", every position in both the left and
the bottom band at which neither the top rule nor the right rule matches is
classified Dirichlet only because of the left-edge rule (rule 3 is the one rule
that matches, and with any other left selector the position is Neumann), while
its Dirichlet temperature is `BcBottom`. The band tests are the ones of the
code, and the statement holds for every rounding of the arithmetic (first
part), hence in double arithmetic and, third part, in exact arithmetic; the
corner of the sample domain is such a position in double arithmetic, and there
`BcBottom` differs from `BcLeft` (second part). -/
theorem corner_asymmetry_left_rule_only :
    (∀ (fl : Scalar → Scalar) (idx : Indices) (g : GridGeometry) (p : Parameters)
        (pos : GlobalPosition),
      p.useHeatSourceBottomLeft = false → p.bcTypeLeft = "dirichlet" →
      p.bcTypeBottom ≠ "dirichlet" →
      pos.x < fl (g.bBoxMin.x + fl eps_) → pos.y < fl (g.bBoxMin.y + fl eps_) →
      ¬ (pos.y > fl (g.bBoxMax.y - fl eps_) ∧ p.bcTypeTop = "dirichlet") →
      ¬ (pos.x > fl (g.bBoxMax.x - fl eps_) ∧ p.bcTypeRight = "dirichlet") →
        boundaryTypesAtPosRounded fl g p.tree pos = Except.ok BoundaryTypes.allDirichlet ∧
        (¬ roundedRule1 fl g p pos ∧ ¬ roundedRule2 fl g p pos ∧ roundedRule3 fl g p pos ∧
          ¬ roundedRule4 fl g p pos ∧ ¬ roundedRule5 fl g p pos) ∧
        (∀ selector : String, selector ≠ "dirichlet" →
          boundaryTypesAtPosRounded fl g (withLeftType p selector).tree pos
            = Except.ok BoundaryTypes.allNeumann) ∧
        temperatureSlot idx (dirichletAtPosRounded fl idx g p.tree pos)
          = Except.ok p.bcBottom) ∧
    (unheated.useHeatSourceBottomLeft = false ∧ unheated.bcTypeLeft = "dirichlet" ∧
      unheated.bcTypeBottom ≠ "dirichlet" ∧ unheated.bcBottom ≠ unheated.bcLeft ∧
      boundaryTypesAtPosRounded roundDouble tenByTen unheated.tree
          ⟨tenByTen.bBoxMin.x, tenByTen.bBoxMin.y⟩
        = Except.ok BoundaryTypes.allDirichlet ∧
      (¬ roundedRule1 roundDouble tenByTen unheated ⟨tenByTen.bBoxMin.x, tenByTen.bBoxMin.y⟩ ∧
        ¬ roundedRule2 roundDouble tenByTen unheated
          ⟨tenByTen.bBoxMin.x, tenByTen.bBoxMin.y⟩ ∧
        roundedRule3 roundDouble tenByTen unheated ⟨tenByTen.bBoxMin.x, tenByTen.bBoxMin.y⟩ ∧
        ¬ roundedRule4 roundDouble tenByTen unheated
          ⟨tenByTen.bBoxMin.x, tenByTen.bBoxMin.y⟩ ∧
        ¬ roundedRule5 roundDouble tenByTen unheated
          ⟨tenByTen.bBoxMin.x, tenByTen.bBoxMin.y⟩) ∧
      boundaryTypesAtPosRounded roundDouble tenByTen (withLeftType unheated "neumann").tree
          ⟨tenByTen.bBoxMin.x, tenByTen.bBoxMin.y⟩
        = Except.ok BoundaryTypes.allNeumann ∧
      temperatureSlot onePNI
          (dirichletAtPosRounded roundDouble onePNI tenByTen unheated.tree
            ⟨tenByTen.bBoxMin.x, tenByTen.bBoxMin.y⟩)
        = Except.ok unheated.bcBottom) ∧
    (∀ (idx : Indices) (g : GridGeometry) (p : Parameters) (pos : GlobalPosition),
      p.useHeatSourceBottomLeft = false → p.bcTypeLeft = "dirichlet" →
      p.bcTypeBottom ≠ "dirichlet" →
      pos.x < g.bBoxMin.x + eps_ → pos.y < g.bBoxMin.y + eps_ →
      ¬ (pos.y > g.bBoxMax.y - eps_ ∧ p.bcTypeTop = "dirichlet") →
      ¬ (pos.x > g.bBoxMax.x - eps_ ∧ p.bcTypeRight = "dirichlet") →
        boundaryTypesAtPos g p.tree pos = Except.ok BoundaryTypes.allDirichlet ∧
        (¬ specRule1 g p pos ∧ ¬ specRule2 g p pos ∧ specRule3 g p pos ∧
          ¬ specRule4 g p pos ∧ ¬ specRule5 g p pos) ∧
        (∀ selector : String, selector ≠ "dirichlet" →
          boundaryTypesAtPos g (withLeftType p selector).tree pos
            = Except.ok BoundaryTypes.allNeumann) ∧
        temperatureSlot idx (dirichletAtPos idx g p.tree pos) = Except.ok p.bcBottom) := by
  have rounded : ∀ (fl : Scalar → Scalar) (idx : Indices) (g : GridGeometry) (p : Parameters)
        (pos : GlobalPosition),
      p.useHeatSourceBottomLeft = false → p.bcTypeLeft = "dirichlet" →
      p.bcTypeBottom ≠ "dirichlet" →
      pos.x < fl (g.bBoxMin.x + fl eps_) → pos.y < fl (g.bBoxMin.y + fl eps_) →
      ¬ (pos.y > fl (g.bBoxMax.y - fl eps_) ∧ p.bcTypeTop = "dirichlet") →
      ¬ (pos.x > fl (g.bBoxMax.x - fl eps_) ∧ p.bcTypeRight = "dirichlet") →
        boundaryTypesAtPosRounded fl g p.tree pos = Except.ok BoundaryTypes.allDirichlet ∧
        (¬ roundedRule1 fl g p pos ∧ ¬ roundedRule2 fl g p pos ∧ roundedRule3 fl g p pos ∧
          ¬ roundedRule4 fl g p pos ∧ ¬ roundedRule5 fl g p pos) ∧
        (∀ selector : String, selector ≠ "dirichlet" →
          boundaryTypesAtPosRounded fl g (withLeftType p selector).tree pos
            = Except.ok BoundaryTypes.allNeumann) ∧
        temperatureSlot idx (dirichletAtPosRounded fl idx g p.tree pos)
          = Except.ok p.bcBottom := by
    intro fl idx g p pos hf hl hb hx hy htop hright
    have h3 : roundedRule3 fl g p pos := ⟨hx, hl⟩
    have hflag : ∀ q : Parameters, q.useHeatSourceBottomLeft = false →
        ¬ roundedRule5 fl g q pos := by
      intro q hq h
      have hq' : q.useHeatSourceBottomLeft = true := h.1
      rw [hq] at hq'
      exact Bool.noConfusion hq'
    have n2 : ∀ q : Parameters, q.bcTypeTop = p.bcTypeTop → ¬ roundedRule2 fl g q pos := by
      intro q hq h
      exact htop ⟨h.1, hq ▸ h.2⟩
    have n4 : ∀ q : Parameters, q.bcTypeRight = p.bcTypeRight → ¬ roundedRule4 fl g q pos := by
      intro q hq h
      exact hright ⟨h.1, hq ▸ h.2⟩
    refine ⟨?_, ⟨fun h => hb h.2, n2 p rfl, h3, n4 p rfl, hflag p hf⟩, ?_, ?_⟩
    · rw [boundaryTypesAtPosRounded_dirichlet_iff]
      exact Or.inr (Or.inr (Or.inl h3))
    · intro selector hs
      rw [boundaryTypesAtPosRounded_neumann_iff]
      rintro (h | h | h | h | h)
      · exact hb h.2
      · exact n2 (withLeftType p selector) rfl h
      · exact hs h.2
      · exact n4 (withLeftType p selector) rfl h
      · exact hflag (withLeftType p selector) hf h
    · rw [temperatureSlot_dirichletAtPosRounded]
      simp [temperatureAtRounded, hf, hy]
  have exact_ : ∀ (idx : Indices) (g : GridGeometry) (p : Parameters) (pos : GlobalPosition),
      p.useHeatSourceBottomLeft = false → p.bcTypeLeft = "dirichlet" →
      p.bcTypeBottom ≠ "dirichlet" →
      pos.x < g.bBoxMin.x + eps_ → pos.y < g.bBoxMin.y + eps_ →
      ¬ (pos.y > g.bBoxMax.y - eps_ ∧ p.bcTypeTop = "dirichlet") →
      ¬ (pos.x > g.bBoxMax.x - eps_ ∧ p.bcTypeRight = "dirichlet") →
        boundaryTypesAtPos g p.tree pos = Except.ok BoundaryTypes.allDirichlet ∧
        (¬ specRule1 g p pos ∧ ¬ specRule2 g p pos ∧ specRule3 g p pos ∧
          ¬ specRule4 g p pos ∧ ¬ specRule5 g p pos) ∧
        (∀ selector : String, selector ≠ "dirichlet" →
          boundaryTypesAtPos g (withLeftType p selector).tree pos
            = Except.ok BoundaryTypes.allNeumann) ∧
        temperatureSlot idx (dirichletAtPos idx g p.tree pos) = Except.ok p.bcBottom := by
    intro idx g p pos hf hl hb hx hy htop hright
    have h3 : specRule3 g p pos := ⟨by linarith, hl⟩
    have hflag : ∀ q : Parameters, q.useHeatSourceBottomLeft = false → ¬ specRule5 g q pos := by
      intro q hq h
      have hq' : q.useHeatSourceBottomLeft = true := h.1
      rw [hq] at hq'
      exact Bool.noConfusion hq'
    have n2 : ∀ q : Parameters, q.bcTypeTop = p.bcTypeTop → ¬ specRule2 g q pos := by
      intro q hq h
      exact htop ⟨sub_lt_comm.1 h.1, hq ▸ h.2⟩
    have n4 : ∀ q : Parameters, q.bcTypeRight = p.bcTypeRight → ¬ specRule4 g q pos := by
      intro q hq h
      exact hright ⟨sub_lt_comm.1 h.1, hq ▸ h.2⟩
    refine ⟨?_, ⟨fun h => hb h.2, n2 p rfl, h3, n4 p rfl, hflag p hf⟩, ?_, ?_⟩
    · rw [boundaryTypesAtPos_dirichlet_iff]
      exact Or.inr (Or.inr (Or.inl h3))
    · intro selector hs
      rw [boundaryTypesAtPos_neumann_iff]
      rintro (h | h | h | h | h)
      · exact hb h.2
      · exact n2 (withLeftType p selector) rfl h
      · exact hs h.2
      · exact n4 (withLeftType p selector) rfl h
      · exact hflag (withLeftType p selector) hf h
    · rw [temperatureSlot_dirichletAtPos]
      simp [temperatureAt, hf, hy]
  refine ⟨rounded, ⟨rfl, rfl, by decide, by norm_num [unheated], ?_⟩, exact_⟩
  have hband : (0 : Scalar) < roundDouble (0 + roundDouble eps_) := by
    rw [roundDouble_zero_add_eps]; exact roundDouble_eps_pos
  obtain ⟨h0, hrules, hother, ht⟩ := rounded roundDouble onePNI tenByTen unheated
    ⟨tenByTen.bBoxMin.x, tenByTen.bBoxMin.y⟩ rfl rfl (by decide) hband hband
    (fun h => absurd h.2 (by decide)) (fun h => absurd h.2 (by decide))
  exact ⟨h0, hrules, hother "neumann" (by decide), ht⟩

theorem corner_asymmetry_left_rule_only_witness :
    (unheated.useHeatSourceBottomLeft = false ∧ unheated.bcTypeLeft = "dirichlet" ∧
      unheated.bcTypeBottom ≠ "dirichlet" ∧
      (⟨0, 0⟩ : GlobalPosition).x < roundDouble (tenByTen.bBoxMin.x + roundDouble eps_) ∧
      (⟨0, 0⟩ : GlobalPosition).y < roundDouble (tenByTen.bBoxMin.y + roundDouble eps_) ∧
      ¬ ((⟨0, 0⟩ : GlobalPosition).y > roundDouble (tenByTen.bBoxMax.y - roundDouble eps_) ∧
        unheated.bcTypeTop = "dirichlet") ∧
      ¬ ((⟨0, 0⟩ : GlobalPosition).x > roundDouble (tenByTen.bBoxMax.x - roundDouble eps_) ∧
        unheated.bcTypeRight = "dirichlet")) ∧
    (boundaryTypesAtPosRounded roundDouble tenByTen unheated.tree ⟨0, 0⟩
        = Except.ok BoundaryTypes.allDirichlet ∧
      boundaryTypesAtPosRounded roundDouble tenByTen (withLeftType unheated "neumann").tree
          ⟨0, 0⟩
        = Except.ok BoundaryTypes.allNeumann ∧
      temperatureSlot onePNI (dirichletAtPosRounded roundDouble onePNI tenByTen unheated.tree
          ⟨0, 0⟩)
        = Except.ok unheated.bcBottom) :=
  have hband : (0 : Scalar) < roundDouble (0 + roundDouble eps_) := by
    rw [roundDouble_zero_add_eps]; exact roundDouble_eps_pos
  have h := corner_asymmetry_left_rule_only.1 roundDouble onePNI tenByTen unheated ⟨0, 0⟩
    rfl rfl (by decide) hband hband
    (fun h => absurd h.2 (by decide)) (fun h => absurd h.2 (by decide))
  ⟨⟨rfl, rfl, by decide, hband, hband, fun h => absurd h.2 (by decide),
      fun h => absurd h.2 (by decide)⟩,
    h.1, h.2.2.1 "neumann" (by decide), h.2.2.2⟩

end Dumux
